import Mathlib

/-!
Verification of the CAPE sandbox report decoder
(`capa/features/extractors/cape/models.py`).

The Python source declares a tree of pydantic models with
`extra="forbid"` (strict records), hex-scalar validators
(`validate_hex_int`, `validate_hex_bytes`), union-shaped fields,
and placeholder field kinds (`Skip`, `TODO`, `ListTODO`, `DictTODO`).

We shallowly embed the decoder: JSON documents are an inductive type,
every model class becomes a Lean structure together with an executable
decoder returning `Except DecodeError`, and error values carry the
dotted path from the report root, built up as failures unwind.
-/

set_option autoImplicit false

namespace Cape

/-- A parsed JSON document, as produced by Python's `json` loader:
integer literals stay exact (`int`), non-integer numeric literals are
kept as their source text (`float`; no decoded field of the models ever
consumes the numeric value of a float, so the literal is enough),
objects keep their key order. -/
inductive Json where
  | null
  | bool (b : Bool)
  | int (n : Int)
  | float (lit : String)
  | str (s : String)
  | arr (elems : List Json)
  | obj (fields : List (String × Json))

/-- Error taxonomy of the decoder.  Every constructor carries the path
from the report root to the offending value, as a list of segments
(field keys, or decimal indices for list elements). -/
inductive DecodeError where
  | malformedInput
  | unknownField (path : List String) (key : String)
  | missingField (path : List String) (field : String)
  | shapeMismatch (path : List String) (expected : String)
  | scalarDecode (path : List String) (raw : String)
  | placeholderViolation (path : List String) (jsonType : String)

/-- Prepend one path segment onto an error, as a failure unwinds out of
a nested field. -/
def DecodeError.push (seg : String) : DecodeError → DecodeError
  | .malformedInput => .malformedInput
  | .unknownField p k => .unknownField (seg :: p) k
  | .missingField p f => .missingField (seg :: p) f
  | .shapeMismatch p e => .shapeMismatch (seg :: p) e
  | .scalarDecode p r => .scalarDecode (seg :: p) r
  | .placeholderViolation p t => .placeholderViolation (seg :: p) t

mutual

/-- The number of nodes of a JSON document (an upper bound on its
nesting depth, used as fuel for the recursive process-tree decoder). -/
def Json.size : Json → Nat
  | .null => 1
  | .bool _ => 1
  | .int _ => 1
  | .float _ => 1
  | .str _ => 1
  | .arr xs => 1 + Json.sizeList xs
  | .obj kvs => 1 + Json.sizeEntries kvs

def Json.sizeList : List Json → Nat
  | [] => 0
  | x :: xs => Json.size x + Json.sizeList xs

def Json.sizeEntries : List (String × Json) → Nat
  | [] => 0
  | (_, v) :: kvs => Json.size v + Json.sizeEntries kvs

end

/-- The name of a JSON value's type, used in placeholder-violation errors. -/
def Json.typeName : Json → String
  | .null => "null"
  | .bool _ => "bool"
  | .int _ => "int"
  | .float _ => "float"
  | .str _ => "str"
  | .arr _ => "list"
  | .obj _ => "dict"

/-- Wrap a nested decode result with the path segment of the field or
element being decoded. -/
def inSeg {α : Type} (seg : String) (r : Except DecodeError α) :
    Except DecodeError α :=
  r.mapError (DecodeError.push seg)

/-! ## Scalar codec: Python `int(value, 16)` -/

/-- The whitespace characters stripped by Python's `int(str, base)`
(ASCII subset). -/
def isPyWs (c : Char) : Bool :=
  c = ' ' || c = '\t' || c = '\n' || c = '\r' || c = '\x0b' || c = '\x0c'

/-- Strip leading and trailing whitespace. -/
def stripWs (cs : List Char) : List Char :=
  ((cs.dropWhile isPyWs).reverse.dropWhile isPyWs).reverse

/-- The value of one hexadecimal digit character, if it is one. -/
def hexVal? (c : Char) : Option Nat :=
  if '0' ≤ c ∧ c ≤ '9' then some (c.toNat - '0'.toNat)
  else if 'a' ≤ c ∧ c ≤ 'f' then some (c.toNat - 'a'.toNat + 10)
  else if 'A' ≤ c ∧ c ≤ 'F' then some (c.toNat - 'A'.toNat + 10)
  else none

/-- Continue parsing hex digits after at least one digit has been read.
A single `_` is allowed between digits (Python underscore grouping);
a trailing or doubled underscore is rejected. -/
def parseHexTail : List Char → Nat → Option Nat
  | [], acc => some acc
  | c :: rest, acc =>
    if c = '_' then
      match rest with
      | [] => none
      | c2 :: rest2 =>
        match hexVal? c2 with
        | some d => parseHexTail rest2 (16 * acc + d)
        | none => none
    else
      match hexVal? c with
      | some d => parseHexTail rest (16 * acc + d)
      | none => none

/-- Parse a nonempty run of hex digits (with underscore grouping) into
its base-16 value.  A leading underscore or an empty run is rejected. -/
def parseHexDigits : List Char → Option Nat
  | [] => none
  | c :: rest =>
    match hexVal? c with
    | some d => parseHexTail rest d
    | none => none

/-- Parse the digits of `int(s, 16)` after the optional sign: an
optional `0x`/`0X` prefix (which may be followed by one grouping
underscore), then hex digits. -/
def parseAfterSign : List Char → Option Nat
  | [] => none
  | [c] => parseHexDigits [c]
  | c1 :: c2 :: rest =>
    if c1 = '0' ∧ (c2 = 'x' ∨ c2 = 'X') then
      match rest with
      | [] => none
      | c3 :: rest3 =>
        if c3 = '_' then parseHexDigits rest3 else parseHexDigits (c3 :: rest3)
    else
      parseHexDigits (c1 :: c2 :: rest)

/-- Model of Python's `int(s, 16)`: strip surrounding whitespace, read
an optional sign, an optional `0x` prefix, then base-16 digits.
`none` models the `ValueError` raised on malformed input. -/
def pyIntBase16 (s : String) : Option Int :=
  match stripWs s.toList with
  | [] => none
  | c :: rest =>
    if c = '+' then (parseAfterSign rest).map Int.ofNat
    else if c = '-' then (parseAfterSign rest).map (fun n => -(Int.ofNat n))
    else (parseAfterSign (c :: rest)).map Int.ofNat

/-- `validate_hex_int` composed with the `int` annotation of `HexInt`:
a string is interpreted in base 16, an integer passes through
unchanged, anything else fails. -/
def decodeHexInt : Json → Except DecodeError Int
  | .int n => .ok n
  | .str s =>
    match pyIntBase16 s with
    | some n => .ok n
    | none => .error (.scalarDecode [] s)
  | j => .error (.scalarDecode [] j.typeName)

/-! ## Scalar codec: `binascii.unhexlify` -/

/-- Model of `binascii.unhexlify` on a character list: consume the hex
digits two at a time into bytes; an odd-length or non-hex-digit input
fails. -/
def unhexlify : List Char → Option (List Nat)
  | [] => some []
  | [_] => none
  | c1 :: c2 :: rest =>
    match hexVal? c1, hexVal? c2, unhexlify rest with
    | some h, some l, some bs => some ((16 * h + l) :: bs)
    | _, _, _ => none

/-- `validate_hex_bytes` composed with the `bytes` annotation of
`HexBytes`: a string is hex-decoded into a byte blob, anything else
(JSON has no native bytes) fails. -/
def decodeHexBytes : Json → Except DecodeError (List Nat)
  | .str s =>
    match unhexlify s.toList with
    | some bs => .ok bs
    | none => .error (.scalarDecode [] s)
  | j => .error (.scalarDecode [] j.typeName)

/-! ## Printing: the canonical hexadecimal representation of a `Nat` -/

/-- One hexadecimal digit character, lowercase. -/
def hexDigitChar (d : Nat) : Char :=
  if d < 10 then Char.ofNat ('0'.toNat + d) else Char.ofNat ('a'.toNat + (d - 10))

/-- Big-endian hex digits of `n` (empty for `0`), with explicit fuel so
that the recursion is structural. -/
def natToHexAux : Nat → Nat → List Char
  | 0, _ => []
  | fuel + 1, n => if n = 0 then [] else natToHexAux fuel (n / 16) ++ [hexDigitChar (n % 16)]

/-- The hexadecimal string representation of `n`, as Python's
`"%x" % n` produces it: lowercase, no prefix, `"0"` for zero. -/
def toHexString (n : Nat) : String :=
  if n = 0 then "0" else String.mk (natToHexAux n n)

/-! ## Strict records

Every model class derives from `Model`, whose configuration is
`extra="forbid"`: after the declared fields are matched, any leftover
key of the object is an unknown-field error.  The field-matching
machinery itself lives in the pydantic library, not in this file's
source; it is modelled from the spec's StrictRecord contract and
configured below exactly by the source's class declarations. -/

/-- Look a key up in a JSON object's field list (first occurrence). -/
def jGet (kvs : List (String × Json)) (key : String) : Option Json :=
  (kvs.find? (fun kv => kv.1 = key)).map (fun kv => kv.2)

/-- `extra="forbid"`: fail on the first object key that no declared
field specification claims (by primary name or alias). -/
def strictKeys (allowed : List String) (kvs : List (String × Json)) :
    Except DecodeError Unit :=
  match kvs.find? (fun kv => !(allowed.contains kv.1)) with
  | some kv => .error (.unknownField [] kv.1)
  | none => .ok ()

/-- Decode a required field: the key must be present, and the nested
result is wrapped with the key as path segment. -/
def reqF {α : Type} (kvs : List (String × Json)) (key : String)
    (d : Json → Except DecodeError α) : Except DecodeError α :=
  match jGet kvs key with
  | none => .error (.missingField [] key)
  | some v => inSeg key (d v)

/-- Decode a required nullable field (`Optional[X]` with no default):
the key must be present; `null` decodes to `none`. -/
def reqNF {α : Type} (kvs : List (String × Json)) (key : String)
    (d : Json → Except DecodeError α) : Except DecodeError (Option α) :=
  match jGet kvs key with
  | none => .error (.missingField [] key)
  | some .null => .ok none
  | some v => inSeg key (Except.map some (d v))

/-- Decode an optional nullable field (`Optional[X] = None`): absent or
`null` decodes to `none`. -/
def optNF {α : Type} (kvs : List (String × Json)) (key : String)
    (d : Json → Except DecodeError α) : Except DecodeError (Option α) :=
  match jGet kvs key with
  | none => .ok none
  | some .null => .ok none
  | some v => inSeg key (Except.map some (d v))

/-! ## Scalar field decoders

Plain JSON scalars: per the spec's interface contract, numeric fields
are plain JSON integers, boolean fields plain JSON booleans, string
fields JSON strings, float fields JSON numbers. -/

def decodeStr : Json → Except DecodeError String
  | .str s => .ok s
  | j => .error (.shapeMismatch [] ("str, got " ++ j.typeName))

def decodeInt : Json → Except DecodeError Int
  | .int n => .ok n
  | j => .error (.shapeMismatch [] ("int, got " ++ j.typeName))

def decodeBool : Json → Except DecodeError Bool
  | .bool b => .ok b
  | j => .error (.shapeMismatch [] ("bool, got " ++ j.typeName))

/-- A JSON numeric value as stored for `float`-annotated fields:
either an exact integer literal or a float literal's source text. -/
inductive JsonNum where
  | int (n : Int)
  | float (lit : String)

def decodeFloat : Json → Except DecodeError JsonNum
  | .int n => .ok (JsonNum.int n)
  | .float lit => .ok (JsonNum.float lit)
  | j => .error (.shapeMismatch [] ("float, got " ++ j.typeName))

/-! ## Compound field decoders -/

/-- Decode the elements of a JSON array, wrapping each element's
failures with its decimal index as path segment. -/
def decodeElems {α : Type} (d : Json → Except DecodeError α) :
    Nat → List Json → Except DecodeError (List α)
  | _, [] => .ok []
  | i, x :: xs =>
    match inSeg (toString i) (d x) with
    | .error e => .error e
    | .ok a =>
      match decodeElems d (i + 1) xs with
      | .error e => .error e
      | .ok as => .ok (a :: as)

/-- `List[X]`: a JSON array whose elements each decode with `d`. -/
def decodeList {α : Type} (d : Json → Except DecodeError α) :
    Json → Except DecodeError (List α)
  | .arr xs => decodeElems d 0 xs
  | j => .error (.shapeMismatch [] ("list, got " ++ j.typeName))

/-- Decode the entries of a JSON object as a string-keyed mapping,
wrapping each value's failures with its key as path segment. -/
def decodeEntries {α : Type} (d : Json → Except DecodeError α) :
    List (String × Json) → Except DecodeError (List (String × α))
  | [] => .ok []
  | (k, v) :: kvs =>
    match inSeg k (d v) with
    | .error e => .error e
    | .ok a =>
      match decodeEntries d kvs with
      | .error e => .error e
      | .ok as => .ok ((k, a) :: as)

/-- `Dict[str, X]`: a JSON object whose values each decode with `d`. -/
def decodeDict {α : Type} (d : Json → Except DecodeError α) :
    Json → Except DecodeError (List (String × α))
  | .obj kvs => decodeEntries d kvs
  | j => .error (.shapeMismatch [] ("dict, got " ++ j.typeName))

/-! ## Placeholder guards -/

/-- `Skip = Optional[Any]`: an opaque field.  Any JSON value is
accepted without validation and retained unmodeled (never decoded into
structured data). -/
def decodeSkip (j : Json) : Except DecodeError Json := .ok j

/-- An opaque field in a record (`field: Skip = None`): absent means
`null`, present means the raw value, never a failure. -/
def skipF (kvs : List (String × Json)) (key : String) :
    Except DecodeError Json :=
  match jGet kvs key with
  | none => .ok Json.null
  | some v => inSeg key (decodeSkip v)

/-- `TODO = None`: a canary field whose only valid content is JSON
`null`; any other content is a placeholder violation carrying the
offending value's JSON type. -/
def decodeTODO : Json → Except DecodeError Unit
  | .null => .ok ()
  | j => .error (.placeholderViolation [] j.typeName)

/-- `ListTODO = List[None]`: a list-shaped canary; the valid contents
are JSON arrays every element of which is `null`. -/
def decodeListTODO (j : Json) : Except DecodeError Unit :=
  Except.map (fun _ => ()) (decodeList decodeTODO j)

/-- `DictTODO = Model`: an object-shaped canary; the only valid content
is an empty JSON object (any key is an unknown field). -/
def decodeDictTODO : Json → Except DecodeError Unit
  | .obj kvs => strictKeys [] kvs
  | j => .error (.placeholderViolation [] j.typeName)

/-! ## Shape-polymorphic field representations

Union-typed fields resolve their variants in declaration order and the
decoded value retains whichever shape the input used. -/

/-- `Union[List[str], str]` (file name, guest path fields). -/
inductive StrOrStrings where
  | strings (xs : List String)
  | str (s : String)

def decodeStrOrStrings : Json → Except DecodeError StrOrStrings
  | .arr xs => Except.map StrOrStrings.strings (decodeElems decodeStr 0 xs)
  | .str s => .ok (StrOrStrings.str s)
  | j => .error (.shapeMismatch [] ("list of str or str, got " ++ j.typeName))

/-- `Union[HexInt, str]` (argument values). -/
inductive ArgValue where
  | int (n : Int)
  | str (s : String)

/-- Resolve an argument value: the `HexInt` variant is declared first,
so it is tried first and used whenever it matches; only otherwise is
the value kept as a plain string. -/
def decodeArgValue (j : Json) : Except DecodeError ArgValue :=
  match decodeHexInt j with
  | .ok n => .ok (ArgValue.int n)
  | .error _ =>
    match j with
    | .str s => .ok (ArgValue.str s)
    | _ => .error (.shapeMismatch [] ("hex int or str, got " ++ j.typeName))

/-! ## Entity schema: PE structural metadata -/

structure ImportedSymbol where
  address : Int
  name : String

def importedSymbolKeys : List String := ["address", "name"]

def decodeImportedSymbol : Json → Except DecodeError ImportedSymbol
  | .obj kvs => do
    strictKeys importedSymbolKeys kvs
    let address ← reqF kvs "address" decodeHexInt
    let name ← reqF kvs "name" decodeStr
    pure { address := address, name := name }
  | j => .error (.shapeMismatch [] ("object, got " ++ j.typeName))

structure ImportedDll where
  dll : String
  imports : List ImportedSymbol

def importedDllKeys : List String := ["dll", "imports"]

def decodeImportedDll : Json → Except DecodeError ImportedDll
  | .obj kvs => do
    strictKeys importedDllKeys kvs
    let dll ← reqF kvs "dll" decodeStr
    let importList ← reqF kvs "imports" (decodeList decodeImportedSymbol)
    pure { dll := dll, imports := importList }
  | j => .error (.shapeMismatch [] ("object, got " ++ j.typeName))

structure DirectoryEntry where
  name : String
  virtual_address : Int
  size : Int

def directoryEntryKeys : List String := ["name", "virtual_address", "size"]

def decodeDirectoryEntry : Json → Except DecodeError DirectoryEntry
  | .obj kvs => do
    strictKeys directoryEntryKeys kvs
    let name ← reqF kvs "name" decodeStr
    let virtual_address ← reqF kvs "virtual_address" decodeHexInt
    let size ← reqF kvs "size" decodeHexInt
    pure { name := name, virtual_address := virtual_address, size := size }
  | j => .error (.shapeMismatch [] ("object, got " ++ j.typeName))

structure Section where
  name : String
  raw_address : Int
  virtual_address : Int
  virtual_size : Int
  size_of_data : Int
  characteristics : String
  characteristics_raw : Int
  entropy : JsonNum

def sectionKeys : List String :=
  ["name", "raw_address", "virtual_address", "virtual_size", "size_of_data",
   "characteristics", "characteristics_raw", "entropy"]

def decodeSection : Json → Except DecodeError Section
  | .obj kvs => do
    strictKeys sectionKeys kvs
    let name ← reqF kvs "name" decodeStr
    let raw_address ← reqF kvs "raw_address" decodeHexInt
    let virtual_address ← reqF kvs "virtual_address" decodeHexInt
    let virtual_size ← reqF kvs "virtual_size" decodeHexInt
    let size_of_data ← reqF kvs "size_of_data" decodeHexInt
    let characteristics ← reqF kvs "characteristics" decodeStr
    let characteristics_raw ← reqF kvs "characteristics_raw" decodeHexInt
    let entropy ← reqF kvs "entropy" decodeFloat
    pure { name := name, raw_address := raw_address,
           virtual_address := virtual_address, virtual_size := virtual_size,
           size_of_data := size_of_data, characteristics := characteristics,
           characteristics_raw := characteristics_raw, entropy := entropy }
  | j => .error (.shapeMismatch [] ("object, got " ++ j.typeName))

structure Signer where
  aux_sha1 : Option Unit
  aux_timestamp : Option Unit
  aux_valid : Option Bool
  aux_error : Option Bool
  aux_error_desc : Option String
  aux_signers : Option Unit

def signerKeys : List String :=
  ["aux_sha1", "aux_timestamp", "aux_valid", "aux_error", "aux_error_desc",
   "aux_signers"]

def decodeSigner : Json → Except DecodeError Signer
  | .obj kvs => do
    strictKeys signerKeys kvs
    let aux_sha1 ← optNF kvs "aux_sha1" decodeTODO
    let aux_timestamp ← optNF kvs "aux_timestamp" decodeTODO
    let aux_valid ← optNF kvs "aux_valid" decodeBool
    let aux_error ← optNF kvs "aux_error" decodeBool
    let aux_error_desc ← optNF kvs "aux_error_desc" decodeStr
    let aux_signers ← optNF kvs "aux_signers" decodeListTODO
    pure { aux_sha1 := aux_sha1, aux_timestamp := aux_timestamp,
           aux_valid := aux_valid, aux_error := aux_error,
           aux_error_desc := aux_error_desc, aux_signers := aux_signers }
  | j => .error (.shapeMismatch [] ("object, got " ++ j.typeName))

structure Resource where
  name : String
  language : String
  sublanguage : String
  filetype : Option String
  offset : Int
  size : Int
  entropy : JsonNum

def resourceKeys : List String :=
  ["name", "language", "sublanguage", "filetype", "offset", "size", "entropy"]

def decodeResource : Json → Except DecodeError Resource
  | .obj kvs => do
    strictKeys resourceKeys kvs
    let name ← reqF kvs "name" decodeStr
    let language ← reqF kvs "language" decodeStr
    let sublanguage ← reqF kvs "sublanguage" decodeStr
    let filetype ← reqNF kvs "filetype" decodeStr
    let offset ← reqF kvs "offset" decodeHexInt
    let size ← reqF kvs "size" decodeHexInt
    let entropy ← reqF kvs "entropy" decodeFloat
    pure { name := name, language := language, sublanguage := sublanguage,
           filetype := filetype, offset := offset, size := size,
           entropy := entropy }
  | j => .error (.shapeMismatch [] ("object, got " ++ j.typeName))

structure Signature where
  alert : Bool
  confidence : Int
  data : List (List (String × Json))
  description : String
  families : List String
  name : String
  new_data : Unit
  references : List String
  severity : Int
  weight : Int

def signatureKeys : List String :=
  ["alert", "confidence", "data", "description", "families", "name",
   "new_data", "references", "severity", "weight"]

def decodeSignature : Json → Except DecodeError Signature
  | .obj kvs => do
    strictKeys signatureKeys kvs
    let alert ← reqF kvs "alert" decodeBool
    let confidence ← reqF kvs "confidence" decodeInt
    let data ← reqF kvs "data" (decodeList (decodeDict decodeSkip))
    let description ← reqF kvs "description" decodeStr
    let families ← reqF kvs "families" (decodeList decodeStr)
    let name ← reqF kvs "name" decodeStr
    let new_data ← reqF kvs "new_data" decodeListTODO
    let references ← reqF kvs "references" (decodeList decodeStr)
    let severity ← reqF kvs "severity" decodeInt
    let weight ← reqF kvs "weight" decodeInt
    pure { alert := alert, confidence := confidence, data := data,
           description := description, families := families, name := name,
           new_data := new_data, references := references,
           severity := severity, weight := weight }
  | j => .error (.shapeMismatch [] ("object, got " ++ j.typeName))

structure Overlay where
  offset : Int
  size : Int

def overlayKeys : List String := ["offset", "size"]

def decodeOverlay : Json → Except DecodeError Overlay
  | .obj kvs => do
    strictKeys overlayKeys kvs
    let offset ← reqF kvs "offset" decodeHexInt
    let size ← reqF kvs "size" decodeHexInt
    pure { offset := offset, size := size }
  | j => .error (.shapeMismatch [] ("object, got " ++ j.typeName))

/-- `Union[List[ImportedDll], Dict[str, ImportedDll]]`: the import
table arrives either as a sequence of per-DLL objects or as a mapping
from DLL base name to the same per-DLL shape; the decoded value
retains whichever shape the input used. -/
inductive PEImports where
  | list (dlls : List ImportedDll)
  | dict (entries : List (String × ImportedDll))

def decodeImports : Json → Except DecodeError PEImports
  | .arr xs => Except.map PEImports.list (decodeElems decodeImportedDll 0 xs)
  | .obj kvs => Except.map PEImports.dict (decodeEntries decodeImportedDll kvs)
  | j => .error (.shapeMismatch [] ("list or dict of imports, got " ++ j.typeName))

structure PE where
  peid_signatures : Unit
  imagebase : Int
  entrypoint : Int
  reported_checksum : Int
  actual_checksum : Int
  osversion : String
  pdbpath : Option String
  timestamp : String
  imports : PEImports
  imported_dll_count : Int
  imphash : String
  exported_dll_name : Option String
  exports : Unit
  dirents : List DirectoryEntry
  sections : List Section
  ep_bytes : Option (List Nat)
  overlay : Option Overlay
  resources : List Resource
  icon : Unit
  icon_hash : Unit
  icon_fuzzy : Unit
  icon_dhash : Option Unit
  versioninfo : Unit
  digital_signers : Unit
  guest_signers : Signer

def peKeys : List String :=
  ["peid_signatures", "imagebase", "entrypoint", "reported_checksum",
   "actual_checksum", "osversion", "pdbpath", "timestamp", "imports",
   "imported_dll_count", "imphash", "exported_dll_name", "exports",
   "dirents", "sections", "ep_bytes", "overlay", "resources", "icon",
   "icon_hash", "icon_fuzzy", "icon_dhash", "versioninfo",
   "digital_signers", "guest_signers"]

def decodePE : Json → Except DecodeError PE
  | .obj kvs => do
    strictKeys peKeys kvs
    let peid_signatures ← reqF kvs "peid_signatures" decodeTODO
    let imagebase ← reqF kvs "imagebase" decodeHexInt
    let entrypoint ← reqF kvs "entrypoint" decodeHexInt
    let reported_checksum ← reqF kvs "reported_checksum" decodeHexInt
    let actual_checksum ← reqF kvs "actual_checksum" decodeHexInt
    let osversion ← reqF kvs "osversion" decodeStr
    let pdbpath ← optNF kvs "pdbpath" decodeStr
    let timestamp ← reqF kvs "timestamp" decodeStr
    let importTable ← reqF kvs "imports" decodeImports
    let imported_dll_count ← reqF kvs "imported_dll_count" decodeInt
    let imphash ← reqF kvs "imphash" decodeStr
    let exported_dll_name ← optNF kvs "exported_dll_name" decodeStr
    let exports ← reqF kvs "exports" decodeListTODO
    let dirents ← reqF kvs "dirents" (decodeList decodeDirectoryEntry)
    let sections ← reqF kvs "sections" (decodeList decodeSection)
    let ep_bytes ← optNF kvs "ep_bytes" decodeHexBytes
    let overlay ← optNF kvs "overlay" decodeOverlay
    let resources ← reqF kvs "resources" (decodeList decodeResource)
    let icon ← reqF kvs "icon" decodeTODO
    let icon_hash ← reqF kvs "icon_hash" decodeTODO
    let icon_fuzzy ← reqF kvs "icon_fuzzy" decodeTODO
    let icon_dhash ← optNF kvs "icon_dhash" decodeTODO
    let versioninfo ← reqF kvs "versioninfo" decodeListTODO
    let digital_signers ← reqF kvs "digital_signers" decodeListTODO
    let guest_signers ← reqF kvs "guest_signers" decodeSigner
    pure { peid_signatures := peid_signatures, imagebase := imagebase,
           entrypoint := entrypoint, reported_checksum := reported_checksum,
           actual_checksum := actual_checksum, osversion := osversion,
           pdbpath := pdbpath, timestamp := timestamp, imports := importTable,
           imported_dll_count := imported_dll_count, imphash := imphash,
           exported_dll_name := exported_dll_name, exports := exports,
           dirents := dirents, sections := sections, ep_bytes := ep_bytes,
           overlay := overlay, resources := resources, icon := icon,
           icon_hash := icon_hash, icon_fuzzy := icon_fuzzy,
           icon_dhash := icon_dhash, versioninfo := versioninfo,
           digital_signers := digital_signers, guest_signers := guest_signers }
  | j => .error (.shapeMismatch [] ("object, got " ++ j.typeName))

/-! ## Entity schema: file records -/

structure File where
  type : String
  cape_type_code : Option Int
  cape_type : Option String
  name : StrOrStrings
  path : String
  guest_paths : Option StrOrStrings
  timestamp : Option String
  crc32 : String
  md5 : String
  sha1 : String
  sha256 : String
  sha512 : String
  sha3_384 : String
  ssdeep : String
  tlsh : String
  rh_hash : Option String
  size : Int
  pe : Option PE
  ep_bytes : Option (List Nat)
  entrypoint : Option Int
  data : Option String
  strings : Option (List String)
  yara : Json
  cape_yara : Json
  clamav : Json
  virustotal : Json

def fileKeys : List String :=
  ["type", "cape_type_code", "cape_type", "name", "path", "guest_paths",
   "timestamp", "crc32", "md5", "sha1", "sha256", "sha512", "sha3_384",
   "ssdeep", "tlsh", "rh_hash", "size", "pe", "ep_bytes", "entrypoint",
   "data", "strings", "yara", "cape_yara", "clamav", "virustotal"]

def decodeFileFields (kvs : List (String × Json)) : Except DecodeError File := do
  let type ← reqF kvs "type" decodeStr
  let cape_type_code ← optNF kvs "cape_type_code" decodeInt
  let cape_type ← optNF kvs "cape_type" decodeStr
  let name ← reqF kvs "name" decodeStrOrStrings
  let path ← reqF kvs "path" decodeStr
  let guest_paths ← reqNF kvs "guest_paths" decodeStrOrStrings
  let timestamp ← optNF kvs "timestamp" decodeStr
  let crc32 ← reqF kvs "crc32" decodeStr
  let md5 ← reqF kvs "md5" decodeStr
  let sha1 ← reqF kvs "sha1" decodeStr
  let sha256 ← reqF kvs "sha256" decodeStr
  let sha512 ← reqF kvs "sha512" decodeStr
  let sha3_384 ← reqF kvs "sha3_384" decodeStr
  let ssdeep ← reqF kvs "ssdeep" decodeStr
  let tlsh ← reqF kvs "tlsh" decodeStr
  let rh_hash ← optNF kvs "rh_hash" decodeStr
  let size ← reqF kvs "size" decodeInt
  let pe ← optNF kvs "pe" decodePE
  let ep_bytes ← optNF kvs "ep_bytes" decodeHexBytes
  let entrypoint ← optNF kvs "entrypoint" decodeInt
  let data ← optNF kvs "data" decodeStr
  let strings ← optNF kvs "strings" (decodeList decodeStr)
  let yara ← skipF kvs "yara"
  let cape_yara ← skipF kvs "cape_yara"
  let clamav ← skipF kvs "clamav"
  let virustotal ← skipF kvs "virustotal"
  pure { type := type, cape_type_code := cape_type_code,
         cape_type := cape_type, name := name, path := path,
         guest_paths := guest_paths, timestamp := timestamp, crc32 := crc32,
         md5 := md5, sha1 := sha1, sha256 := sha256, sha512 := sha512,
         sha3_384 := sha3_384, ssdeep := ssdeep, tlsh := tlsh,
         rh_hash := rh_hash, size := size, pe := pe, ep_bytes := ep_bytes,
         entrypoint := entrypoint, data := data, strings := strings,
         yara := yara, cape_yara := cape_yara, clamav := clamav,
         virustotal := virustotal }

def decodeFile : Json → Except DecodeError File
  | .obj kvs => do
    strictKeys fileKeys kvs
    decodeFileFields kvs
  | j => .error (.shapeMismatch [] ("object, got " ++ j.typeName))

/-- `ProcessFile(File)`: all the `File` fields plus the dynamic
analysis linkage (struct embedding, not subtype polymorphism). -/
structure ProcessFile extends File where
  pid : Int
  process_path : String
  process_name : String
  module_path : String
  virtual_address : Option Int
  target_pid : Option Int
  target_path : Option String
  target_process : Option String

def processFileKeys : List String :=
  fileKeys ++ ["pid", "process_path", "process_name", "module_path",
               "virtual_address", "target_pid", "target_path",
               "target_process"]

def decodeProcessFile : Json → Except DecodeError ProcessFile
  | .obj kvs => do
    strictKeys processFileKeys kvs
    let base ← decodeFileFields kvs
    let pid ← reqF kvs "pid" decodeInt
    let process_path ← reqF kvs "process_path" decodeStr
    let process_name ← reqF kvs "process_name" decodeStr
    let module_path ← reqF kvs "module_path" decodeStr
    let virtual_address ← optNF kvs "virtual_address" decodeHexInt
    let target_pid ← optNF kvs "target_pid" decodeInt
    let target_path ← optNF kvs "target_path" decodeStr
    let target_process ← optNF kvs "target_process" decodeStr
    pure { toFile := base, pid := pid, process_path := process_path,
           process_name := process_name, module_path := module_path,
           virtual_address := virtual_address, target_pid := target_pid,
           target_path := target_path, target_process := target_process }
  | j => .error (.shapeMismatch [] ("object, got " ++ j.typeName))

/-! ## Entity schema: dynamic execution trace -/

structure Argument where
  name : String
  value : ArgValue
  pretty_value : Option String

def argumentKeys : List String := ["name", "value", "pretty_value"]

def decodeArgument : Json → Except DecodeError Argument
  | .obj kvs => do
    strictKeys argumentKeys kvs
    let name ← reqF kvs "name" decodeStr
    let value ← reqF kvs "value" decodeArgValue
    let pretty_value ← optNF kvs "pretty_value" decodeStr
    pure { name := name, value := value, pretty_value := pretty_value }
  | j => .error (.shapeMismatch [] ("object, got " ++ j.typeName))

structure Call where
  timestamp : String
  thread_id : Int
  category : String
  api : String
  arguments : List Argument
  status : Bool
  return_ : Int
  pretty_return : Option String
  repeated : Int
  caller : Int
  parentcaller : Int
  id : Int

/-- The JSON keys of a `Call`: the return-value attribute `return_` is
populated from the raw key `"return"` via its alias. -/
def callKeys : List String :=
  ["timestamp", "thread_id", "category", "api", "arguments", "status",
   "return", "pretty_return", "repeated", "caller", "parentcaller", "id"]

def decodeCall : Json → Except DecodeError Call
  | .obj kvs => do
    strictKeys callKeys kvs
    let timestamp ← reqF kvs "timestamp" decodeStr
    let thread_id ← reqF kvs "thread_id" decodeInt
    let category ← reqF kvs "category" decodeStr
    let api ← reqF kvs "api" decodeStr
    let arguments ← reqF kvs "arguments" (decodeList decodeArgument)
    let status ← reqF kvs "status" decodeBool
    let return_ ← reqF kvs "return" decodeHexInt
    let pretty_return ← optNF kvs "pretty_return" decodeStr
    let repeated ← reqF kvs "repeated" decodeInt
    let caller ← reqF kvs "caller" decodeHexInt
    let parentcaller ← reqF kvs "parentcaller" decodeHexInt
    let id ← reqF kvs "id" decodeInt
    pure { timestamp := timestamp, thread_id := thread_id,
           category := category, api := api, arguments := arguments,
           status := status, return_ := return_,
           pretty_return := pretty_return, repeated := repeated,
           caller := caller, parentcaller := parentcaller, id := id }
  | j => .error (.shapeMismatch [] ("object, got " ++ j.typeName))

structure Process where
  process_id : Int
  process_name : String
  parent_id : Int
  module_path : String
  first_seen : String
  calls : List Call
  threads : List Int
  environ : List (String × String)

def processKeys : List String :=
  ["process_id", "process_name", "parent_id", "module_path", "first_seen",
   "calls", "threads", "environ"]

def decodeProcess : Json → Except DecodeError Process
  | .obj kvs => do
    strictKeys processKeys kvs
    let process_id ← reqF kvs "process_id" decodeInt
    let process_name ← reqF kvs "process_name" decodeStr
    let parent_id ← reqF kvs "parent_id" decodeInt
    let module_path ← reqF kvs "module_path" decodeStr
    let first_seen ← reqF kvs "first_seen" decodeStr
    let calls ← reqF kvs "calls" (decodeList decodeCall)
    let threads ← reqF kvs "threads" (decodeList decodeInt)
    let environ ← reqF kvs "environ" (decodeDict decodeStr)
    pure { process_id := process_id, process_name := process_name,
           parent_id := parent_id, module_path := module_path,
           first_seen := first_seen, calls := calls, threads := threads,
           environ := environ }
  | j => .error (.shapeMismatch [] ("object, got " ++ j.typeName))

/-- A recursive process-tree node: a process owns an ordered list of
child nodes. -/
inductive ProcessTree where
  | node (name : String) (pid : Int) (parent_id : Int) (module_path : String)
      (threads : List Int) (environ : List (String × String))
      (children : List ProcessTree)

def processTreeKeys : List String :=
  ["name", "pid", "parent_id", "module_path", "threads", "environ",
   "children"]

/-- Fuel-indexed decoder for the recursive `ProcessTree`; the fuel is
only a termination device (bounded below by the nesting depth of the
input, it never runs out when called through `decodeProcessTree`). -/
def decodeProcessTreeAux : Nat → Json → Except DecodeError ProcessTree
  | 0, _ => .error (.shapeMismatch [] "process tree nesting too deep")
  | fuel + 1, .obj kvs => do
    strictKeys processTreeKeys kvs
    let name ← reqF kvs "name" decodeStr
    let pid ← reqF kvs "pid" decodeInt
    let parent_id ← reqF kvs "parent_id" decodeInt
    let module_path ← reqF kvs "module_path" decodeStr
    let threads ← reqF kvs "threads" (decodeList decodeInt)
    let environ ← reqF kvs "environ" (decodeDict decodeStr)
    let children ← reqF kvs "children" (decodeList (decodeProcessTreeAux fuel))
    pure (ProcessTree.node name pid parent_id module_path threads environ
      children)
  | _ + 1, j => .error (.shapeMismatch [] ("object, got " ++ j.typeName))

def decodeProcessTree (j : Json) : Except DecodeError ProcessTree :=
  decodeProcessTreeAux j.size j

structure EventFileData where
  file : String
  pathtofile : Option String
  moduleaddress : Option Int

def eventFileDataKeys : List String := ["file", "pathtofile", "moduleaddress"]

def decodeEventFileData : Json → Except DecodeError EventFileData
  | .obj kvs => do
    strictKeys eventFileDataKeys kvs
    let file ← reqF kvs "file" decodeStr
    let pathtofile ← optNF kvs "pathtofile" decodeStr
    let moduleaddress ← optNF kvs "moduleaddress" decodeHexInt
    pure { file := file, pathtofile := pathtofile,
           moduleaddress := moduleaddress }
  | j => .error (.shapeMismatch [] ("object, got " ++ j.typeName))

structure EventRegData where
  regkey : String
  content : Option String

def eventRegDataKeys : List String := ["regkey", "content"]

def decodeEventRegData : Json → Except DecodeError EventRegData
  | .obj kvs => do
    strictKeys eventRegDataKeys kvs
    let regkey ← reqF kvs "regkey" decodeStr
    let content ← optNF kvs "content" decodeStr
    pure { regkey := regkey, content := content }
  | j => .error (.shapeMismatch [] ("object, got " ++ j.typeName))

structure EventMoveData where
  from_ : Option String
  «to» : Option String

/-- The move-event `from_` attribute is populated from the raw key
`"from"` via its alias. -/
def eventMoveDataKeys : List String := ["from", "to"]

def decodeEventMoveData : Json → Except DecodeError EventMoveData
  | .obj kvs => do
    strictKeys eventMoveDataKeys kvs
    let from_ ← reqNF kvs "from" decodeStr
    let toVal ← optNF kvs "to" decodeStr
    pure { from_ := from_, «to» := toVal }
  | j => .error (.shapeMismatch [] ("object, got " ++ j.typeName))

/-- `Union[EventFileData, EventRegData, EventMoveData]`, resolved in
declaration order. -/
inductive EventData where
  | file (d : EventFileData)
  | reg (d : EventRegData)
  | move (d : EventMoveData)

def decodeEventData (j : Json) : Except DecodeError EventData :=
  match decodeEventFileData j with
  | .ok d => .ok (EventData.file d)
  | .error _ =>
    match decodeEventRegData j with
    | .ok d => .ok (EventData.reg d)
    | .error _ =>
      match decodeEventMoveData j with
      | .ok d => .ok (EventData.move d)
      | .error _ =>
        .error (.shapeMismatch [] ("event data, got " ++ j.typeName))

structure EnhancedEvent where
  event : String
  object : String
  timestamp : String
  eid : Int
  data : EventData

def enhancedEventKeys : List String :=
  ["event", "object", "timestamp", "eid", "data"]

def decodeEnhancedEvent : Json → Except DecodeError EnhancedEvent
  | .obj kvs => do
    strictKeys enhancedEventKeys kvs
    let event ← reqF kvs "event" decodeStr
    let object ← reqF kvs "object" decodeStr
    let timestamp ← reqF kvs "timestamp" decodeStr
    let eid ← reqF kvs "eid" decodeInt
    let data ← reqF kvs "data" decodeEventData
    pure { event := event, object := object, timestamp := timestamp,
           eid := eid, data := data }
  | j => .error (.shapeMismatch [] ("object, got " ++ j.typeName))

structure Summary where
  files : List String
  read_files : List String
  write_files : List String
  delete_files : List String
  keys : List String
  read_keys : List String
  write_keys : List String
  delete_keys : List String
  executed_commands : List String
  resolved_apis : List String
  mutexes : List String
  created_services : List String
  started_services : List String

def summaryKeys : List String :=
  ["files", "read_files", "write_files", "delete_files", "keys",
   "read_keys", "write_keys", "delete_keys", "executed_commands",
   "resolved_apis", "mutexes", "created_services", "started_services"]

def decodeSummary : Json → Except DecodeError Summary
  | .obj kvs => do
    strictKeys summaryKeys kvs
    let files ← reqF kvs "files" (decodeList decodeStr)
    let read_files ← reqF kvs "read_files" (decodeList decodeStr)
    let write_files ← reqF kvs "write_files" (decodeList decodeStr)
    let delete_files ← reqF kvs "delete_files" (decodeList decodeStr)
    let keys ← reqF kvs "keys" (decodeList decodeStr)
    let read_keys ← reqF kvs "read_keys" (decodeList decodeStr)
    let write_keys ← reqF kvs "write_keys" (decodeList decodeStr)
    let delete_keys ← reqF kvs "delete_keys" (decodeList decodeStr)
    let executed_commands ← reqF kvs "executed_commands" (decodeList decodeStr)
    let resolved_apis ← reqF kvs "resolved_apis" (decodeList decodeStr)
    let mutexes ← reqF kvs "mutexes" (decodeList decodeStr)
    let created_services ← reqF kvs "created_services" (decodeList decodeStr)
    let started_services ← reqF kvs "started_services" (decodeList decodeStr)
    pure { files := files, read_files := read_files,
           write_files := write_files, delete_files := delete_files,
           keys := keys, read_keys := read_keys, write_keys := write_keys,
           delete_keys := delete_keys, executed_commands := executed_commands,
           resolved_apis := resolved_apis, mutexes := mutexes,
           created_services := created_services,
           started_services := started_services }
  | j => .error (.shapeMismatch [] ("object, got " ++ j.typeName))

structure Behavior where
  summary : Summary
  processes : List Process
  processtree : List ProcessTree
  anomaly : List String
  enhanced : List EnhancedEvent
  encryptedbuffers : Unit

def behaviorKeys : List String :=
  ["summary", "processes", "processtree", "anomaly", "enhanced",
   "encryptedbuffers"]

def decodeBehavior : Json → Except DecodeError Behavior
  | .obj kvs => do
    strictKeys behaviorKeys kvs
    let summary ← reqF kvs "summary" decodeSummary
    let processes ← reqF kvs "processes" (decodeList decodeProcess)
    let processtree ← reqF kvs "processtree" (decodeList decodeProcessTree)
    let anomaly ← reqF kvs "anomaly" (decodeList decodeStr)
    let enhanced ← reqF kvs "enhanced" (decodeList decodeEnhancedEvent)
    let encryptedbuffers ← reqF kvs "encryptedbuffers" decodeListTODO
    pure { summary := summary, processes := processes,
           processtree := processtree, anomaly := anomaly,
           enhanced := enhanced, encryptedbuffers := encryptedbuffers }
  | j => .error (.shapeMismatch [] ("object, got " ++ j.typeName))

/-! ## Entity schema: network and Suricata telemetry -/

structure Host where
  ip : String
  country_name : String
  hostname : String
  inaddrarpa : String

def hostKeys : List String := ["ip", "country_name", "hostname", "inaddrarpa"]

def decodeHost : Json → Except DecodeError Host
  | .obj kvs => do
    strictKeys hostKeys kvs
    let ip ← reqF kvs "ip" decodeStr
    let country_name ← reqF kvs "country_name" decodeStr
    let hostname ← reqF kvs "hostname" decodeStr
    let inaddrarpa ← reqF kvs "inaddrarpa" decodeStr
    pure { ip := ip, country_name := country_name, hostname := hostname,
           inaddrarpa := inaddrarpa }
  | j => .error (.shapeMismatch [] ("object, got " ++ j.typeName))

structure Domain where
  domain : String
  ip : String

def domainKeys : List String := ["domain", "ip"]

def decodeDomain : Json → Except DecodeError Domain
  | .obj kvs => do
    strictKeys domainKeys kvs
    let domain ← reqF kvs "domain" decodeStr
    let ip ← reqF kvs "ip" decodeStr
    pure { domain := domain, ip := ip }
  | j => .error (.shapeMismatch [] ("object, got " ++ j.typeName))

structure TcpEvent where
  src : String
  sport : Int
  dst : String
  dport : Int
  offset : Int
  time : JsonNum

def tcpEventKeys : List String :=
  ["src", "sport", "dst", "dport", "offset", "time"]

def decodeTcpEvent : Json → Except DecodeError TcpEvent
  | .obj kvs => do
    strictKeys tcpEventKeys kvs
    let src ← reqF kvs "src" decodeStr
    let sport ← reqF kvs "sport" decodeInt
    let dst ← reqF kvs "dst" decodeStr
    let dport ← reqF kvs "dport" decodeInt
    let offset ← reqF kvs "offset" decodeInt
    let time ← reqF kvs "time" decodeFloat
    pure { src := src, sport := sport, dst := dst, dport := dport,
           offset := offset, time := time }
  | j => .error (.shapeMismatch [] ("object, got " ++ j.typeName))

structure UdpEvent where
  src : String
  sport : Int
  dst : String
  dport : Int
  offset : Int
  time : JsonNum

def udpEventKeys : List String :=
  ["src", "sport", "dst", "dport", "offset", "time"]

def decodeUdpEvent : Json → Except DecodeError UdpEvent
  | .obj kvs => do
    strictKeys udpEventKeys kvs
    let src ← reqF kvs "src" decodeStr
    let sport ← reqF kvs "sport" decodeInt
    let dst ← reqF kvs "dst" decodeStr
    let dport ← reqF kvs "dport" decodeInt
    let offset ← reqF kvs "offset" decodeInt
    let time ← reqF kvs "time" decodeFloat
    pure { src := src, sport := sport, dst := dst, dport := dport,
           offset := offset, time := time }
  | j => .error (.shapeMismatch [] ("object, got " ++ j.typeName))

structure DnsEvent where
  request : String
  type : String
  answers : Unit

def dnsEventKeys : List String := ["request", "type", "answers"]

def decodeDnsEvent : Json → Except DecodeError DnsEvent
  | .obj kvs => do
    strictKeys dnsEventKeys kvs
    let request ← reqF kvs "request" decodeStr
    let type ← reqF kvs "type" decodeStr
    let answers ← reqF kvs "answers" decodeListTODO
    pure { request := request, type := type, answers := answers }
  | j => .error (.shapeMismatch [] ("object, got " ++ j.typeName))

structure IcmpEvent where
  src : String
  dst : String
  type : Int
  data : String

def icmpEventKeys : List String := ["src", "dst", "type", "data"]

def decodeIcmpEvent : Json → Except DecodeError IcmpEvent
  | .obj kvs => do
    strictKeys icmpEventKeys kvs
    let src ← reqF kvs "src" decodeStr
    let dst ← reqF kvs "dst" decodeStr
    let type ← reqF kvs "type" decodeInt
    let data ← reqF kvs "data" decodeStr
    pure { src := src, dst := dst, type := type, data := data }
  | j => .error (.shapeMismatch [] ("object, got " ++ j.typeName))

/-- `Tuple[str, int]` (dead hosts): a two-element JSON array. -/
def decodeStrIntPair : Json → Except DecodeError (String × Int)
  | .arr [a, b] => do
    let s ← inSeg "0" (decodeStr a)
    let n ← inSeg "1" (decodeInt b)
    pure (s, n)
  | j => .error (.shapeMismatch [] ("pair, got " ++ j.typeName))

structure Network where
  pcap_sha256 : Option String
  hosts : Option (List Host)
  domains : Option (List Domain)
  tcp : Option (List TcpEvent)
  udp : Option (List UdpEvent)
  icmp : Option (List IcmpEvent)
  http : Option Unit
  dns : Option (List DnsEvent)
  smtp : Option Unit
  irc : Option Unit
  domainlookups : Option Unit
  iplookups : Option Unit
  http_ex : Option Unit
  https_ex : Option Unit
  smtp_ex : Option Unit
  dead_hosts : Option (List (String × Int))

def networkKeys : List String :=
  ["pcap_sha256", "hosts", "domains", "tcp", "udp", "icmp", "http", "dns",
   "smtp", "irc", "domainlookups", "iplookups", "http_ex", "https_ex",
   "smtp_ex", "dead_hosts"]

def decodeNetwork : Json → Except DecodeError Network
  | .obj kvs => do
    strictKeys networkKeys kvs
    let pcap_sha256 ← optNF kvs "pcap_sha256" decodeStr
    let hosts ← optNF kvs "hosts" (decodeList decodeHost)
    let domains ← optNF kvs "domains" (decodeList decodeDomain)
    let tcp ← optNF kvs "tcp" (decodeList decodeTcpEvent)
    let udp ← optNF kvs "udp" (decodeList decodeUdpEvent)
    let icmp ← optNF kvs "icmp" (decodeList decodeIcmpEvent)
    let http ← optNF kvs "http" decodeListTODO
    let dns ← optNF kvs "dns" (decodeList decodeDnsEvent)
    let smtp ← optNF kvs "smtp" decodeListTODO
    let irc ← optNF kvs "irc" decodeListTODO
    let domainlookups ← optNF kvs "domainlookups" decodeDictTODO
    let iplookups ← optNF kvs "iplookups" decodeDictTODO
    let http_ex ← optNF kvs "http_ex" decodeListTODO
    let https_ex ← optNF kvs "https_ex" decodeListTODO
    let smtp_ex ← optNF kvs "smtp_ex" decodeListTODO
    let dead_hosts ← optNF kvs "dead_hosts" (decodeList decodeStrIntPair)
    pure { pcap_sha256 := pcap_sha256, hosts := hosts, domains := domains,
           tcp := tcp, udp := udp, icmp := icmp, http := http, dns := dns,
           smtp := smtp, irc := irc, domainlookups := domainlookups,
           iplookups := iplookups, http_ex := http_ex, https_ex := https_ex,
           smtp_ex := smtp_ex, dead_hosts := dead_hosts }
  | j => .error (.shapeMismatch [] ("object, got " ++ j.typeName))

structure SuricataDnsEvent where
  id : Int
  type : String
  rrname : String
  rrtype : String
  tx_id : Int

def suricataDnsEventKeys : List String :=
  ["id", "type", "rrname", "rrtype", "tx_id"]

def decodeSuricataDnsEvent : Json → Except DecodeError SuricataDnsEvent
  | .obj kvs => do
    strictKeys suricataDnsEventKeys kvs
    let id ← reqF kvs "id" decodeInt
    let type ← reqF kvs "type" decodeStr
    let rrname ← reqF kvs "rrname" decodeStr
    let rrtype ← reqF kvs "rrtype" decodeStr
    let tx_id ← reqF kvs "tx_id" decodeInt
    pure { id := id, type := type, rrname := rrname, rrtype := rrtype,
           tx_id := tx_id }
  | j => .error (.shapeMismatch [] ("object, got " ++ j.typeName))

structure SuricataNetworkEntry where
  timestamp : String
  event_type : String
  proto : String
  flow_id : Int
  pcap_cnt : Int
  src_ip : String
  src_port : Int
  dest_ip : String
  dest_port : Int
  dns : Option SuricataDnsEvent

def suricataNetworkEntryKeys : List String :=
  ["timestamp", "event_type", "proto", "flow_id", "pcap_cnt", "src_ip",
   "src_port", "dest_ip", "dest_port", "dns"]

def decodeSuricataNetworkEntry : Json → Except DecodeError SuricataNetworkEntry
  | .obj kvs => do
    strictKeys suricataNetworkEntryKeys kvs
    let timestamp ← reqF kvs "timestamp" decodeStr
    let event_type ← reqF kvs "event_type" decodeStr
    let proto ← reqF kvs "proto" decodeStr
    let flow_id ← reqF kvs "flow_id" decodeInt
    let pcap_cnt ← reqF kvs "pcap_cnt" decodeInt
    let src_ip ← reqF kvs "src_ip" decodeStr
    let src_port ← reqF kvs "src_port" decodeInt
    let dest_ip ← reqF kvs "dest_ip" decodeStr
    let dest_port ← reqF kvs "dest_port" decodeInt
    let dns ← reqNF kvs "dns" decodeSuricataDnsEvent
    pure { timestamp := timestamp, event_type := event_type, proto := proto,
           flow_id := flow_id, pcap_cnt := pcap_cnt, src_ip := src_ip,
           src_port := src_port, dest_ip := dest_ip, dest_port := dest_port,
           dns := dns }
  | j => .error (.shapeMismatch [] ("object, got " ++ j.typeName))

structure Suricata where
  alerts : Unit
  dns : List SuricataNetworkEntry
  fileinfo : Unit
  files : Unit
  http : Unit
  perf : Unit
  ssh : Unit
  tls : Unit
  alert_log_full_path : Json
  dns_log_full_path : Json
  eve_log_full_path : Json
  file_log_full_path : Json
  http_log_full_path : Json
  ssh_log_full_path : Json
  tls_log_full_path : Json

def suricataKeys : List String :=
  ["alerts", "dns", "fileinfo", "files", "http", "perf", "ssh", "tls",
   "alert_log_full_path", "dns_log_full_path", "eve_log_full_path",
   "file_log_full_path", "http_log_full_path", "ssh_log_full_path",
   "tls_log_full_path"]

def decodeSuricata : Json → Except DecodeError Suricata
  | .obj kvs => do
    strictKeys suricataKeys kvs
    let alerts ← reqF kvs "alerts" decodeListTODO
    let dns ← reqF kvs "dns" (decodeList decodeSuricataNetworkEntry)
    let fileinfo ← reqF kvs "fileinfo" decodeListTODO
    let files ← reqF kvs "files" decodeListTODO
    let http ← reqF kvs "http" decodeListTODO
    let perf ← reqF kvs "perf" decodeListTODO
    let ssh ← reqF kvs "ssh" decodeListTODO
    let tls ← reqF kvs "tls" decodeListTODO
    let alert_log_full_path ← skipF kvs "alert_log_full_path"
    let dns_log_full_path ← skipF kvs "dns_log_full_path"
    let eve_log_full_path ← skipF kvs "eve_log_full_path"
    let file_log_full_path ← skipF kvs "file_log_full_path"
    let http_log_full_path ← skipF kvs "http_log_full_path"
    let ssh_log_full_path ← skipF kvs "ssh_log_full_path"
    let tls_log_full_path ← skipF kvs "tls_log_full_path"
    pure { alerts := alerts, dns := dns, fileinfo := fileinfo, files := files,
           http := http, perf := perf, ssh := ssh, tls := tls,
           alert_log_full_path := alert_log_full_path,
           dns_log_full_path := dns_log_full_path,
           eve_log_full_path := eve_log_full_path,
           file_log_full_path := file_log_full_path,
           http_log_full_path := http_log_full_path,
           ssh_log_full_path := ssh_log_full_path,
           tls_log_full_path := tls_log_full_path }
  | j => .error (.shapeMismatch [] ("object, got " ++ j.typeName))

/-! ## Entity schema: report root -/

structure Target where
  category : String
  file : File

def targetKeys : List String := ["category", "file"]

def decodeTarget : Json → Except DecodeError Target
  | .obj kvs => do
    strictKeys targetKeys kvs
    let category ← reqF kvs "category" decodeStr
    let file ← reqF kvs "file" decodeFile
    pure { category := category, file := file }
  | j => .error (.shapeMismatch [] ("object, got " ++ j.typeName))

structure Static where
  pe : PE
  flare_capa : Json

def staticKeys : List String := ["pe", "flare_capa"]

def decodeStatic : Json → Except DecodeError Static
  | .obj kvs => do
    strictKeys staticKeys kvs
    let pe ← reqF kvs "pe" decodePE
    let flare_capa ← skipF kvs "flare_capa"
    pure { pe := pe, flare_capa := flare_capa }
  | j => .error (.shapeMismatch [] ("object, got " ++ j.typeName))

structure CAPE where
  payloads : List ProcessFile
  configs : Unit

def capeKeys : List String := ["payloads", "configs"]

def decodeCAPE : Json → Except DecodeError CAPE
  | .obj kvs => do
    strictKeys capeKeys kvs
    let payloads ← reqF kvs "payloads" (decodeList decodeProcessFile)
    let configs ← reqF kvs "configs" decodeListTODO
    pure { payloads := payloads, configs := configs }
  | j => .error (.shapeMismatch [] ("object, got " ++ j.typeName))

/-- `Dict[int, List[str]]` (detections2pid): a JSON object whose keys
must parse as decimal integers. -/
def decodeIntKeyedStrLists (j : Json) :
    Except DecodeError (List (Int × List String)) :=
  match j with
  | .obj kvs => go kvs
  | _ => .error (.shapeMismatch [] ("dict, got " ++ j.typeName))
where
  go : List (String × Json) → Except DecodeError (List (Int × List String))
    | [] => .ok []
    | (k, v) :: kvs => do
      match k.toInt? with
      | none => .error (.scalarDecode [k] k)
      | some n => do
        let xs ← inSeg k (decodeList decodeStr v)
        let rest ← go kvs
        pure ((n, xs) :: rest)

structure CapeReport where
  target : Target
  static : Option Static
  strings : Option (List String)
  behavior : Behavior
  CAPE : CAPE
  network : Network
  suricata : Suricata
  dropped : List File
  procdump : List ProcessFile
  procmemory : Unit
  curtain : Option Unit
  sysmon : Option Unit
  deduplicated_shots : Json
  info : Json
  statistics : Json
  ttps : Json
  debug : Json
  signatures : List Signature
  malfamily_tag : Option String
  malscore : JsonNum
  detections : Option String
  detections2pid : Option (List (Int × List String))
  virustotal : Json

def capeReportKeys : List String :=
  ["target", "static", "strings", "behavior", "CAPE", "network", "suricata",
   "dropped", "procdump", "procmemory", "curtain", "sysmon",
   "deduplicated_shots", "info", "statistics", "ttps", "debug",
   "signatures", "malfamily_tag", "malscore", "detections",
   "detections2pid", "virustotal"]

def decodeCapeReport : Json → Except DecodeError CapeReport
  | .obj kvs => do
    strictKeys capeReportKeys kvs
    let target ← reqF kvs "target" decodeTarget
    let static ← optNF kvs "static" decodeStatic
    let strings ← optNF kvs "strings" (decodeList decodeStr)
    let behavior ← reqF kvs "behavior" decodeBehavior
    let cape ← reqF kvs "CAPE" decodeCAPE
    let network ← reqF kvs "network" decodeNetwork
    let suricata ← reqF kvs "suricata" decodeSuricata
    let dropped ← reqF kvs "dropped" (decodeList decodeFile)
    let procdump ← reqF kvs "procdump" (decodeList decodeProcessFile)
    let procmemory ← reqF kvs "procmemory" decodeListTODO
    let curtain ← optNF kvs "curtain" decodeTODO
    let sysmon ← optNF kvs "sysmon" decodeListTODO
    let deduplicated_shots ← skipF kvs "deduplicated_shots"
    let info ← skipF kvs "info"
    let statistics ← skipF kvs "statistics"
    let ttps ← skipF kvs "ttps"
    let debug ← skipF kvs "debug"
    let signatures ← reqF kvs "signatures" (decodeList decodeSignature)
    let malfamily_tag ← optNF kvs "malfamily_tag" decodeStr
    let malscore ← reqF kvs "malscore" decodeFloat
    let detections ← optNF kvs "detections" decodeStr
    let detections2pid ← optNF kvs "detections2pid" decodeIntKeyedStrLists
    let virustotal ← skipF kvs "virustotal"
    pure { target := target, static := static, strings := strings,
           behavior := behavior, CAPE := cape, network := network,
           suricata := suricata, dropped := dropped, procdump := procdump,
           procmemory := procmemory, curtain := curtain, sysmon := sysmon,
           deduplicated_shots := deduplicated_shots, info := info,
           statistics := statistics, ttps := ttps, debug := debug,
           signatures := signatures, malfamily_tag := malfamily_tag,
           malscore := malscore, detections := detections,
           detections2pid := detections2pid, virustotal := virustotal }
  | j => .error (.shapeMismatch [] ("object, got " ++ j.typeName))

/-! ## ReportDecoder: bytes → report

`CapeReport.from_buf` delegates JSON parsing to the runtime
(`model_validate_json`); that parser is library code, not part of this
repository's source, so it is modelled from the spec: the input is one
UTF-8 JSON document, and malformed JSON is a decode failure tagged
distinctly from schema-validation failures. -/

def isJsonWs (c : Char) : Bool :=
  c = ' ' || c = '\t' || c = '\n' || c = '\r'

def skipJsonWs (cs : List Char) : List Char :=
  cs.dropWhile isJsonWs

def isDecDigit (c : Char) : Bool :=
  '0' ≤ c ∧ c ≤ '9'

def digitsToNat (ds : List Char) : Nat :=
  ds.foldl (fun a c => 10 * a + (c.toNat - '0'.toNat)) 0

/-- Parse a JSON number: an integer literal stays exact, a literal with
a fraction or exponent is kept as its source text. -/
def parseNumber (cs : List Char) : Option (Json × List Char) :=
  let signed : Bool × List Char :=
    match cs with
    | '-' :: r => (true, r)
    | _ => (false, cs)
  let ds := signed.2.takeWhile isDecDigit
  let cs2 := signed.2.dropWhile isDecDigit
  if ds.isEmpty then none
  else
    let intLit : List Char := (if signed.1 then ['-'] else []) ++ ds
    match cs2 with
    | '.' :: r =>
      let fs := r.takeWhile isDecDigit
      let cs3 := r.dropWhile isDecDigit
      if fs.isEmpty then none
      else
        match cs3 with
        | e :: r2 =>
          if e = 'e' ∨ e = 'E' then
            parseExpTail (intLit ++ '.' :: fs) e r2
          else some (.float (String.mk (intLit ++ '.' :: fs)), cs3)
        | [] => some (.float (String.mk (intLit ++ '.' :: fs)), cs3)
    | e :: r2 =>
      if e = 'e' ∨ e = 'E' then parseExpTail intLit e r2
      else some (.int (mkIntLit signed.1 ds), cs2)
    | [] => some (.int (mkIntLit signed.1 ds), cs2)
where
  mkIntLit (neg : Bool) (ds : List Char) : Int :=
    if neg then -(Int.ofNat (digitsToNat ds)) else Int.ofNat (digitsToNat ds)
  parseExpTail (lit : List Char) (e : Char) (r : List Char) :
      Option (Json × List Char) :=
    let signed : List Char × List Char :=
      match r with
      | '+' :: r2 => (['+'], r2)
      | '-' :: r2 => (['-'], r2)
      | _ => ([], r)
    let es := signed.2.takeWhile isDecDigit
    let rest := signed.2.dropWhile isDecDigit
    if es.isEmpty then none
    else some (.float (String.mk (lit ++ e :: (signed.1 ++ es))), rest)

/-- Parse the body of a JSON string after the opening quote, returning
the decoded characters and the rest of the input after the closing
quote. -/
def parseStringBody : List Char → Option (List Char × List Char)
  | [] => none
  | '"' :: rest => some ([], rest)
  | '\\' :: 'u' :: c1 :: c2 :: c3 :: c4 :: rest => do
    let a ← hexVal? c1
    let b ← hexVal? c2
    let c ← hexVal? c3
    let d ← hexVal? c4
    let sr ← parseStringBody rest
    pure (Char.ofNat (((a * 16 + b) * 16 + c) * 16 + d) :: sr.1, sr.2)
  | '\\' :: e :: rest => do
    let c ←
      if e = '"' then some '"'
      else if e = '\\' then some '\\'
      else if e = '/' then some '/'
      else if e = 'b' then some '\x08'
      else if e = 'f' then some '\x0c'
      else if e = 'n' then some '\n'
      else if e = 'r' then some '\r'
      else if e = 't' then some '\t'
      else none
    let sr ← parseStringBody rest
    pure (c :: sr.1, sr.2)
  | c :: rest => do
    let sr ← parseStringBody rest
    pure (c :: sr.1, sr.2)

/-- Parse the comma-separated elements of a JSON array after `[`, with
`pv` parsing one value. -/
def parseElemsWith (pv : List Char → Option (Json × List Char)) :
    Nat → List Char → Option (List Json × List Char)
  | 0, _ => none
  | n + 1, cs =>
    match skipJsonWs cs with
    | ']' :: rest => some ([], rest)
    | cs2 => do
      let (v, cs3) ← pv cs2
      match skipJsonWs cs3 with
      | ',' :: cs4 =>
        match skipJsonWs cs4 with
        | ']' :: _ => none
        | cs5 => do
          let (vs, cs6) ← parseElemsWith pv n cs5
          pure (v :: vs, cs6)
      | ']' :: rest => some ([v], rest)
      | _ => none

/-- Parse the comma-separated members of a JSON object after the
opening brace, with `pv` parsing one value. -/
def parseMembersWith (pv : List Char → Option (Json × List Char)) :
    Nat → List Char → Option (List (String × Json) × List Char)
  | 0, _ => none
  | n + 1, cs =>
    match skipJsonWs cs with
    | '\x7d' :: rest => some ([], rest)
    | '"' :: cs2 => do
      let (kcs, cs3) ← parseStringBody cs2
      match skipJsonWs cs3 with
      | ':' :: cs4 => do
        let (v, cs5) ← pv cs4
        match skipJsonWs cs5 with
        | ',' :: cs6 => do
          match skipJsonWs cs6 with
          | '"' :: _ => do
            let (ms, cs7) ← parseMembersWith pv n cs6
            pure ((String.mk kcs, v) :: ms, cs7)
          | _ => none
        | '\x7d' :: rest => some ([(String.mk kcs, v)], rest)
        | _ => none
      | _ => none
    | _ => none

/-- Parse one JSON value, fuel-indexed so that the nesting recursion is
structural; the fuel never runs out when called through `parseJson`. -/
def parseValue : Nat → List Char → Option (Json × List Char)
  | 0, _ => none
  | fuel + 1, cs =>
    match skipJsonWs cs with
    | [] => none
    | 'n' :: 'u' :: 'l' :: 'l' :: rest => some (.null, rest)
    | 't' :: 'r' :: 'u' :: 'e' :: rest => some (.bool true, rest)
    | 'f' :: 'a' :: 'l' :: 's' :: 'e' :: rest => some (.bool false, rest)
    | '"' :: rest => do
      let sr ← parseStringBody rest
      pure (.str (String.mk sr.1), sr.2)
    | '[' :: rest => do
      let (vs, cs2) ← parseElemsWith (parseValue fuel) (rest.length + 1) rest
      pure (.arr vs, cs2)
    | '\x7b' :: rest => do
      let (ms, cs2) ← parseMembersWith (parseValue fuel) (rest.length + 1) rest
      pure (.obj ms, cs2)
    | cs2 => parseNumber cs2

/-- Parse one complete JSON document (only trailing whitespace may
follow the value). -/
def parseJson (buf : String) : Option Json :=
  match parseValue (buf.length + 1) buf.toList with
  | some (j, rest) => if (skipJsonWs rest).isEmpty then some j else none
  | none => none

/-- `CapeReport.from_buf`: the single decode entry point, taking the
report document (UTF-8 text) to a validated report or a structured
failure.  Malformed JSON fails with `malformedInput`, distinct from
every schema-validation error. -/
def CapeReport.from_buf (buf : String) : Except DecodeError CapeReport :=
  match parseJson buf with
  | none => .error .malformedInput
  | some j => decodeCapeReport j

/-! ## Concrete fixtures -/

/-- A fully valid `target.file` object (all required fields present),
extended with extra keys. -/
def fileFixture (extra : List (String × Json)) : Json := Json.obj ([
  ("type", Json.str "PE32 executable (GUI) Intel 80386, for MS Windows"),
  ("name", Json.str "sample.exe"),
  ("path", Json.str "/data/sample.exe"),
  ("guest_paths", Json.null),
  ("crc32", Json.str "C054B68F"),
  ("md5", Json.str "d41d8cd98f00b204e9800998ecf8427e"),
  ("sha1", Json.str "da39a3ee5e6b4b0d3255bfef95601890afd80709"),
  ("sha256", Json.str "e3b0c44298fc1c149afbf4c8996fb92427ae41e4649b934ca495991b7852b855"),
  ("sha512", Json.str "cf83e1357eefb8bd"),
  ("sha3_384", Json.str "0c63a75b845e4f7d"),
  ("ssdeep", Json.str "3::"),
  ("tlsh", Json.str "T1A0B1"),
  ("size", Json.int 1024)
] ++ extra)

/-- A report whose `target.file` object carries the unrecognized key
`extra_debug_field`. -/
def extraFieldReport : Json := Json.obj [
  ("target", Json.obj [
    ("category", Json.str "file"),
    ("file", fileFixture [("extra_debug_field", Json.int 1)])])]

/-- A `static.pe` object, valid except that the canary field
`icon_hash` holds the non-null string `"deadbeef"`. -/
def peFixture : Json := Json.obj [
  ("peid_signatures", Json.null),
  ("imagebase", Json.str "0x400000"),
  ("entrypoint", Json.str "0x401000"),
  ("reported_checksum", Json.str "0x0"),
  ("actual_checksum", Json.str "0x0"),
  ("osversion", Json.str "6.0"),
  ("timestamp", Json.str "2023-01-01 00:00:00"),
  ("imports", Json.arr []),
  ("imported_dll_count", Json.int 0),
  ("imphash", Json.str ""),
  ("exports", Json.arr []),
  ("dirents", Json.arr []),
  ("sections", Json.arr []),
  ("resources", Json.arr []),
  ("icon", Json.null),
  ("icon_hash", Json.str "deadbeef"),
  ("icon_fuzzy", Json.null),
  ("versioninfo", Json.arr []),
  ("digital_signers", Json.arr []),
  ("guest_signers", Json.obj [])
]

/-- A report with a valid `target` and a `static.pe` whose `icon_hash`
canary is populated. -/
def canaryReport : Json := Json.obj [
  ("target", Json.obj [
    ("category", Json.str "file"),
    ("file", fileFixture [])]),
  ("static", Json.obj [("pe", peFixture)])]

/-- A call record whose return value arrives under the raw JSON key
`"return"` with the hex string value `"0x1"`. -/
def callFixture : Json := Json.obj [
  ("timestamp", Json.str "2023-01-01 00:00:01,000"),
  ("thread_id", Json.int 2345),
  ("category", Json.str "filesystem"),
  ("api", Json.str "CreateFileA"),
  ("arguments", Json.arr [Json.obj [
    ("name", Json.str "lpFileName"),
    ("value", Json.str "0x1a")]]),
  ("status", Json.bool true),
  ("return", Json.str "0x1"),
  ("repeated", Json.int 0),
  ("caller", Json.str "0x401000"),
  ("parentcaller", Json.str "0x401005"),
  ("id", Json.int 0)
]

/-- The same call record with the attribute's internal name `return_`
in place of the raw aliased key `"return"`. -/
def callFixtureUnaliased : Json := Json.obj [
  ("timestamp", Json.str "2023-01-01 00:00:01,000"),
  ("thread_id", Json.int 2345),
  ("category", Json.str "filesystem"),
  ("api", Json.str "CreateFileA"),
  ("arguments", Json.arr [Json.obj [
    ("name", Json.str "lpFileName"),
    ("value", Json.str "0x1a")]]),
  ("status", Json.bool true),
  ("return_", Json.str "0x1"),
  ("repeated", Json.int 0),
  ("caller", Json.str "0x401000"),
  ("parentcaller", Json.str "0x401005"),
  ("id", Json.int 0)
]

/-- One per-DLL import group as a JSON object. -/
def dllFixture : Json := Json.obj [
  ("dll", Json.str "KERNEL32.dll"),
  ("imports", Json.arr [Json.obj [
    ("address", Json.str "0x401000"),
    ("name", Json.str "CreateFileA")]])]

/-- The import group `dllFixture` decodes to. -/
def dllDecoded : ImportedDll :=
  { dll := "KERNEL32.dll",
    imports := [{ address := 4198400, name := "CreateFileA" }] }

/-! ## Lemmas: the hex-integer codec on canonical digit strings -/

theorem hexVal?_hexDigitChar : ∀ d, d < 16 → hexVal? (hexDigitChar d) = some d := by
  decide

theorem hexDigitChar_props : ∀ d, d < 16 →
    hexDigitChar d ≠ '_' ∧ hexDigitChar d ≠ '+' ∧ hexDigitChar d ≠ '-' ∧
    hexDigitChar d ≠ 'x' ∧ hexDigitChar d ≠ 'X' ∧
    isPyWs (hexDigitChar d) = false := by
  decide

theorem parseHexTail_map (ds : List Nat) :
    ∀ acc, (∀ d ∈ ds, d < 16) →
    parseHexTail (ds.map hexDigitChar) acc =
      some (ds.foldl (fun a d => 16 * a + d) acc) := by
  induction ds with
  | nil => intro acc _; rfl
  | cons d ds ih =>
    intro acc h
    have hd : d < 16 := h d (List.mem_cons_self d ds)
    simp only [List.map_cons]
    rw [parseHexTail.eq_def]
    simp only [if_neg (hexDigitChar_props d hd).1, hexVal?_hexDigitChar d hd]
    exact ih (16 * acc + d) (fun x hx => h x (List.mem_cons_of_mem d hx))

theorem parseHexDigits_map (d : Nat) (ds : List Nat)
    (h : ∀ x ∈ d :: ds, x < 16) :
    parseHexDigits ((d :: ds).map hexDigitChar) =
      some ((d :: ds).foldl (fun a x => 16 * a + x) 0) := by
  have hd : d < 16 := h d (List.mem_cons_self d ds)
  simp only [List.map_cons, parseHexDigits, hexVal?_hexDigitChar d hd]
  rw [parseHexTail_map ds d (fun x hx => h x (List.mem_cons_of_mem d hx))]
  simp

theorem parseAfterSign_map (d : Nat) (ds : List Nat)
    (h : ∀ x ∈ d :: ds, x < 16) :
    parseAfterSign ((d :: ds).map hexDigitChar) =
      parseHexDigits ((d :: ds).map hexDigitChar) := by
  cases ds with
  | nil => rfl
  | cons d2 ds2 =>
    have hd2 : d2 < 16 := h d2 (List.mem_cons_of_mem d (List.mem_cons_self d2 ds2))
    simp only [List.map_cons, parseAfterSign]
    rw [if_neg]
    intro hcon
    rcases hcon.2 with hx | hX
    · exact (hexDigitChar_props d2 hd2).2.2.2.1 hx
    · exact (hexDigitChar_props d2 hd2).2.2.2.2.1 hX

theorem dropWhile_eq_self_of_forall {α : Type} (p : α → Bool) (cs : List α)
    (h : ∀ c ∈ cs, p c = false) : cs.dropWhile p = cs := by
  cases cs with
  | nil => rfl
  | cons c rest =>
    rw [List.dropWhile_cons, h c (List.mem_cons_self c rest)]
    simp

theorem stripWs_eq_self (cs : List Char)
    (h : ∀ c ∈ cs, isPyWs c = false) : stripWs cs = cs := by
  unfold stripWs
  rw [dropWhile_eq_self_of_forall isPyWs cs h,
      dropWhile_eq_self_of_forall isPyWs cs.reverse
        (fun c hc => h c (List.mem_reverse.mp hc)),
      List.reverse_reverse]

theorem foldl_hex_eq_ofDigits (ds : List Nat) :
    ∀ acc, ds.foldl (fun a d => 16 * a + d) acc =
      acc * 16 ^ ds.length + Nat.ofDigits 16 ds.reverse := by
  induction ds with
  | nil => intro acc; simp
  | cons d ds ih =>
    intro acc
    rw [List.foldl_cons, ih (16 * acc + d), List.reverse_cons,
        Nat.ofDigits_append, List.length_reverse, List.length_cons]
    simp only [Nat.ofDigits_singleton]
    ring

theorem pyIntBase16_hexDigits (d : Nat) (ds : List Nat)
    (h : ∀ x ∈ d :: ds, x < 16) :
    pyIntBase16 (String.mk ((d :: ds).map hexDigitChar)) =
      some (Int.ofNat (Nat.ofDigits 16 (d :: ds).reverse)) := by
  have hall : ∀ c ∈ (d :: ds).map hexDigitChar, isPyWs c = false := by
    intro c hc
    rcases List.mem_map.mp hc with ⟨x, hx, rfl⟩
    exact (hexDigitChar_props x (h x hx)).2.2.2.2.2
  have hd : d < 16 := h d (List.mem_cons_self d ds)
  have htl : (String.mk ((d :: ds).map hexDigitChar)).toList =
      (d :: ds).map hexDigitChar := rfl
  unfold pyIntBase16
  rw [htl, stripWs_eq_self _ hall]
  simp only [List.map_cons]
  rw [if_neg (hexDigitChar_props d hd).2.1, if_neg (hexDigitChar_props d hd).2.2.1]
  have := parseAfterSign_map d ds h
  simp only [List.map_cons] at this
  rw [this]
  have := parseHexDigits_map d ds h
  simp only [List.map_cons] at this
  rw [this, foldl_hex_eq_ofDigits (d :: ds) 0]
  simp

theorem natToHexAux_eq_digits : ∀ fuel n, n ≤ fuel →
    natToHexAux fuel n = ((Nat.digits 16 n).map hexDigitChar).reverse := by
  intro fuel
  induction fuel with
  | zero =>
    intro n hn
    interval_cases n
    simp [natToHexAux]
  | succ fuel ih =>
    intro n hn
    by_cases h0 : n = 0
    · subst h0; simp [natToHexAux]
    · have hpos : 0 < n := Nat.pos_of_ne_zero h0
      have hdig : Nat.digits 16 n = n % 16 :: Nat.digits 16 (n / 16) :=
        Nat.digits_def' (by norm_num) hpos
      have hdiv : n / 16 ≤ fuel := by
        have : n / 16 < n := Nat.div_lt_self hpos (by norm_num)
        omega
      simp only [natToHexAux, if_neg h0, hdig, List.map_cons,
        List.reverse_cons, ih (n / 16) hdiv]

/-! ## Lemmas: `binascii.unhexlify` -/

/-- Two-step list induction, matching the recursion of `unhexlify`. -/
theorem list_pair_induction (P : List Char → Prop) (h0 : P [])
    (h1 : ∀ c, P [c]) (h2 : ∀ c1 c2 rest, P rest → P (c1 :: c2 :: rest)) :
    ∀ cs, P cs := by
  have key : ∀ n cs, List.length cs ≤ n → P cs := by
    intro n
    induction n with
    | zero =>
      intro cs h
      cases cs with
      | nil => exact h0
      | cons c rest => simp at h
    | succ n ih =>
      intro cs h
      match cs with
      | [] => exact h0
      | [c] => exact h1 c
      | c1 :: c2 :: rest =>
        refine h2 c1 c2 rest (ih rest ?_)
        simp only [List.length_cons] at h
        omega
  intro cs
  exact key cs.length cs le_rfl

theorem unhexlify_even_length :
    ∀ cs : List Char, (∀ c ∈ cs, (hexVal? c).isSome) → cs.length % 2 = 0 →
    ∃ bs, unhexlify cs = some bs ∧ bs.length = cs.length / 2 := by
  apply list_pair_induction (fun cs =>
    (∀ c ∈ cs, (hexVal? c).isSome) → cs.length % 2 = 0 →
    ∃ bs, unhexlify cs = some bs ∧ bs.length = cs.length / 2)
  · intro _ _
    exact ⟨[], rfl, rfl⟩
  · intro c _ h2
    simp at h2
  · intro c1 c2 rest ih hall hlen
    obtain ⟨d1, hv1⟩ := Option.isSome_iff_exists.mp (hall c1 (by simp))
    obtain ⟨d2, hv2⟩ := Option.isSome_iff_exists.mp (hall c2 (by simp))
    obtain ⟨bs, hbs, hblen⟩ := ih (fun c hc => hall c (by simp [hc]))
      (by simp only [List.length_cons] at hlen ⊢; omega)
    refine ⟨(16 * d1 + d2) :: bs, ?_, ?_⟩
    · simp only [unhexlify, hv1, hv2, hbs]
    · simp only [List.length_cons, hblen]
      omega

theorem unhexlify_odd_length :
    ∀ cs : List Char, cs.length % 2 = 1 → unhexlify cs = none := by
  apply list_pair_induction (fun cs => cs.length % 2 = 1 → unhexlify cs = none)
  · intro h
    simp at h
  · intro c _
    rfl
  · intro c1 c2 rest ih hlen
    have hrest : unhexlify rest = none := by
      refine ih ?_
      simp only [List.length_cons] at hlen
      omega
    rcases hv1 : hexVal? c1 with _ | d1 <;> rcases hv2 : hexVal? c2 with _ | d2 <;>
      simp only [unhexlify, hv1, hv2, hrest]

theorem unhexlify_bad_digit :
    ∀ cs : List Char, ∀ c ∈ cs, hexVal? c = none → unhexlify cs = none := by
  apply list_pair_induction (fun cs =>
    ∀ c ∈ cs, hexVal? c = none → unhexlify cs = none)
  · intro c hc
    simp at hc
  · intro c _ _ _
    rfl
  · intro c1 c2 rest ih c hc hbad
    rcases List.mem_cons.mp hc with rfl | hc2
    · rcases hv2 : hexVal? c2 with _ | d2 <;>
        rcases hr : unhexlify rest with _ | bs <;>
        simp only [unhexlify, hbad, hv2, hr]
    rcases List.mem_cons.mp hc2 with rfl | hc3
    · rcases hv1 : hexVal? c1 with _ | d1 <;>
        rcases hr : unhexlify rest with _ | bs <;>
        simp only [unhexlify, hbad, hv1, hr]
    · have hrest := ih c hc3 hbad
      rcases hv1 : hexVal? c1 with _ | d1 <;>
        rcases hv2 : hexVal? c2 with _ | d2 <;>
        simp only [unhexlify, hv1, hv2, hrest]

/-! ## Claim theorems -/

/-- C3: `validate_hex_int` (as used by `HexInt`) returns an integer
input unchanged; interprets a string of hex digits as the base-16
integer they denote, and fails the decode on a string that is not a
base-16 numeral; and fails the decode for an input of any other
JSON type. -/
theorem validate_hex_int_contract :
    (∀ i : Int, decodeHexInt (Json.int i) = .ok i) ∧
    (∀ (d : Nat) (ds : List Nat), (∀ x ∈ d :: ds, x < 16) →
      decodeHexInt (Json.str (String.mk ((d :: ds).map hexDigitChar))) =
        .ok (Int.ofNat (Nat.ofDigits 16 (d :: ds).reverse))) ∧
    (∀ s : String, pyIntBase16 s = none →
      decodeHexInt (Json.str s) = .error (.scalarDecode [] s)) ∧
    (∀ j : Json, (∀ i, j ≠ Json.int i) → (∀ s, j ≠ Json.str s) →
      decodeHexInt j = .error (.scalarDecode [] j.typeName)) := by
  refine ⟨fun i => rfl, ?_, ?_, ?_⟩
  · intro d ds h
    have hp := pyIntBase16_hexDigits d ds h
    simp only [decodeHexInt, hp]
  · intro s h
    simp only [decodeHexInt, h]
  · intro j hint hstr
    cases j with
    | int i => exact absurd rfl (hint i)
    | str s => exact absurd rfl (hstr s)
    | null => rfl
    | bool b => rfl
    | float lit => rfl
    | arr xs => rfl
    | obj kvs => rfl

/-- Witness for C3 at concrete inputs: the integer `7`, the hex-digit
string `"1a"`, the non-numeral string `"zz"` and the boolean `true`. -/
theorem validate_hex_int_contract_witness :
    decodeHexInt (Json.int 7) = .ok 7 ∧
    decodeHexInt (Json.str (String.mk ([1, 10].map hexDigitChar))) =
      .ok (Int.ofNat (Nat.ofDigits 16 [10, 1])) ∧
    decodeHexInt (Json.str "zz") = .error (.scalarDecode [] "zz") ∧
    decodeHexInt (Json.bool true) = .error (.scalarDecode [] "bool") :=
  ⟨validate_hex_int_contract.1 7,
   validate_hex_int_contract.2.1 1 [10] (by decide),
   validate_hex_int_contract.2.2.1 "zz" rfl,
   validate_hex_int_contract.2.2.2 (Json.bool true)
     (fun i h => Json.noConfusion h) (fun s h => Json.noConfusion h)⟩

/-- C9: for every natural number `n`, decoding the canonical
hexadecimal string representation of `n` with `validate_hex_int`
returns `n` (round-trip), and `validate_hex_int` applied to the
already-native integer `n` returns `n` unchanged (pass-through). -/
theorem hex_int_roundtrip :
    (∀ n : Nat, decodeHexInt (Json.str (toHexString n)) = .ok (Int.ofNat n)) ∧
    (∀ n : Nat, decodeHexInt (Json.int (Int.ofNat n)) = .ok (Int.ofNat n)) := by
  refine ⟨?_, fun n => rfl⟩
  intro n
  by_cases h0 : n = 0
  · subst h0; rfl
  · have hds : Nat.digits 16 n ≠ [] := Nat.digits_ne_nil_iff_ne_zero.mpr h0
    obtain ⟨d, ds', hcons⟩ : ∃ d ds', (Nat.digits 16 n).reverse = d :: ds' := by
      cases hrev : (Nat.digits 16 n).reverse with
      | nil =>
        exact absurd (by simpa using congrArg List.reverse hrev) hds
      | cons d ds' => exact ⟨d, ds', rfl⟩
    have hlt : ∀ x ∈ d :: ds', x < 16 := by
      intro x hx
      rw [← hcons] at hx
      exact Nat.digits_lt_base (by norm_num) (List.mem_reverse.mp hx)
    have hstr : toHexString n = String.mk ((d :: ds').map hexDigitChar) := by
      unfold toHexString
      rw [if_neg h0, natToHexAux_eq_digits n n le_rfl, ← hcons,
          List.map_reverse]
    rw [hstr, validate_hex_int_contract.2.1 d ds' hlt, ← hcons,
        List.reverse_reverse, Nat.ofDigits_digits]

/-- C7: for an `Argument.value` field (`Union[HexInt, str]`), the
hex-encoded-integer variant is declared first and is used whenever it
matches: every string that parses as base-16 decodes to the integer,
and only a string that does not parse is kept as a plain string. -/
theorem argument_value_variant_order :
    (∀ (s : String) (n : Int), pyIntBase16 s = some n →
      decodeArgValue (Json.str s) = .ok (ArgValue.int n)) ∧
    (∀ s : String, pyIntBase16 s = none →
      decodeArgValue (Json.str s) = .ok (ArgValue.str s)) := by
  constructor
  · intro s n h
    simp only [decodeArgValue, decodeHexInt, h]
  · intro s h
    simp only [decodeArgValue, decodeHexInt, h]

/-- Witness for C7: `"0x1"` parses in base 16 and decodes to the
integer variant; `"lpFileName"` does not parse and stays a string. -/
theorem argument_value_variant_order_witness :
    decodeArgValue (Json.str "0x1") = .ok (ArgValue.int 1) ∧
    decodeArgValue (Json.str "lpFileName") = .ok (ArgValue.str "lpFileName") :=
  ⟨argument_value_variant_order.1 "0x1" 1 rfl,
   argument_value_variant_order.2 "lpFileName" rfl⟩

/-- C4: `validate_hex_bytes` (as used by `HexBytes`) turns every
hex-digit string of even length into a byte blob of half its length,
and fails with a scalar decode error on a string of odd length or one
containing a non-hex-digit character. -/
theorem validate_hex_bytes_contract :
    (∀ s : String, (∀ c ∈ s.toList, (hexVal? c).isSome) →
      s.toList.length % 2 = 0 →
      ∃ bs, decodeHexBytes (Json.str s) = .ok bs ∧
        bs.length = s.toList.length / 2) ∧
    (∀ s : String, s.toList.length % 2 = 1 →
      decodeHexBytes (Json.str s) = .error (.scalarDecode [] s)) ∧
    (∀ (s : String) (c : Char), c ∈ s.toList → hexVal? c = none →
      decodeHexBytes (Json.str s) = .error (.scalarDecode [] s)) := by
  refine ⟨?_, ?_, ?_⟩
  · intro s hall hlen
    obtain ⟨bs, hbs, hblen⟩ := unhexlify_even_length s.toList hall hlen
    exact ⟨bs, by simp only [decodeHexBytes, hbs], hblen⟩
  · intro s hlen
    simp only [decodeHexBytes, unhexlify_odd_length s.toList hlen]
  · intro s c hc hbad
    simp only [decodeHexBytes, unhexlify_bad_digit s.toList c hc hbad]

/-- Witness for C4 at concrete inputs: `"4d5a"` (even, valid),
`"4d5"` (odd) and `"az"` (bad digit). -/
theorem validate_hex_bytes_contract_witness :
    (∃ bs, decodeHexBytes (Json.str "4d5a") = .ok bs ∧ bs.length = 2) ∧
    decodeHexBytes (Json.str "4d5") = .error (.scalarDecode [] "4d5") ∧
    decodeHexBytes (Json.str "az") = .error (.scalarDecode [] "az") :=
  ⟨validate_hex_bytes_contract.1 "4d5a" (by decide) (by decide),
   validate_hex_bytes_contract.2.1 "4d5" (by decide),
   validate_hex_bytes_contract.2.2 "az" 'z' (by decide) rfl⟩

/-- C6: a `Call` record field supplied under the raw JSON key
`"return"` is decoded onto the record's return-value attribute
`return_` via the alias — the string value `"0x1"` decodes to the
integer `1` — while the internal attribute name `return_` is not an
accepted JSON key. -/
theorem call_return_alias :
    Except.map Call.return_ (decodeCall callFixture) = .ok 1 ∧
    decodeCall callFixtureUnaliased = .error (.unknownField [] "return_") :=
  ⟨rfl, rfl⟩

/-- C8: `Skip` (opaque) fields accept any JSON value whatsoever
without a decode failure; the value is retained unmodeled (identity,
no structural decoding), and an opaque record field never fails
whether present or absent. -/
theorem skip_fields_opaque :
    (∀ j : Json, decodeSkip j = .ok j) ∧
    (∀ (kvs : List (String × Json)) (key : String),
      ∃ v, skipF kvs key = .ok v) := by
  constructor
  · intro j
    rfl
  · intro kvs key
    unfold skipF
    cases jGet kvs key with
    | none => exact ⟨Json.null, rfl⟩
    | some v => exact ⟨v, rfl⟩

/-- C10: the top-level decode entry point `CapeReport.from_buf` is a
pure, deterministic function of its input text: two invocations on
equal input yield equal results (the same report or the same
failure), no external state being consulted. -/
theorem from_buf_deterministic :
    ∀ b1 b2 : String, b1 = b2 →
      CapeReport.from_buf b1 = CapeReport.from_buf b2 := by
  intro b1 b2 h
  rw [h]

/-- Witness for C10 at the concrete buffer of an empty JSON object. -/
theorem from_buf_deterministic_witness :
    CapeReport.from_buf "\x7b\x7d" = CapeReport.from_buf "\x7b\x7d" :=
  from_buf_deterministic "\x7b\x7d" "\x7b\x7d" rfl

/-- C1: a JSON object holding a key claimed by no declared field
specification fails to decode with an unknown-field error naming an
offending key, and in particular adding `"extra_debug_field": 1`
inside the `target.file` object makes the whole report decode fail
with an unknown-field error at path `target.file.extra_debug_field`. -/
theorem unknown_field_rejection :
    (∀ (allowed : List String) (kvs : List (String × Json)) (k : String)
      (v : Json), (k, v) ∈ kvs → allowed.contains k = false →
      ∃ k', strictKeys allowed kvs = .error (.unknownField [] k') ∧
        k' ∈ kvs.map Prod.fst ∧ allowed.contains k' = false) ∧
    decodeCapeReport extraFieldReport =
      .error (.unknownField ["target", "file"] "extra_debug_field") := by
  constructor
  · intro allowed kvs k v hmem hfree
    have hex : ∃ x, x ∈ kvs ∧ (!(allowed.contains x.1)) = true :=
      ⟨(k, v), hmem, by show (!(allowed.contains k)) = true; rw [hfree]; rfl⟩
    obtain ⟨x, hfind⟩ := Option.isSome_iff_exists.mp (List.find?_isSome.mpr hex)
    refine ⟨x.1, ?_, ?_, ?_⟩
    · simp only [strictKeys, hfind]
    · exact List.mem_map.mpr ⟨x, List.mem_of_find?_eq_some hfind, rfl⟩
    · have hx := List.find?_some hfind
      simpa using hx
  · rfl

/-- Witness for C1's general part: the object `\x7b"b": null\x7d`
against a record claiming only the key `"a"`. -/
theorem unknown_field_rejection_witness :
    ∃ k', strictKeys ["a"] [("b", Json.null)] = .error (.unknownField [] k') ∧
      k' ∈ [("b", Json.null)].map Prod.fst ∧
      List.contains ["a"] k' = false :=
  unknown_field_rejection.1 ["a"] [("b", Json.null)] "b" Json.null
    (List.mem_singleton.mpr rfl) (by decide)

/-! ## Lemmas: placeholder guards on lists -/

theorem decodeTODO_eq_ok_iff (x : Json) (u : Unit) :
    decodeTODO x = .ok u ↔ x = Json.null := by
  cases x <;> simp [decodeTODO]

theorem decodeElems_TODO (xs : List Json) : ∀ i : Nat,
    (∃ as, decodeElems decodeTODO i xs = .ok as) ↔
      ∀ x ∈ xs, x = Json.null := by
  induction xs with
  | nil =>
    intro i
    simp [decodeElems]
  | cons x xs ih =>
    intro i
    constructor
    · rintro ⟨as, has⟩
      simp only [decodeElems] at has
      cases hx : decodeTODO x with
      | error e =>
        rw [hx] at has
        simp [inSeg, Except.mapError] at has
      | ok a =>
        rw [hx] at has
        simp only [inSeg, Except.mapError] at has
        cases hrest : decodeElems decodeTODO (i + 1) xs with
        | error e =>
          rw [hrest] at has
          simp at has
        | ok as' =>
          intro y hy
          rcases List.mem_cons.mp hy with rfl | hy2
          · exact (decodeTODO_eq_ok_iff y a).mp hx
          · exact (ih (i + 1)).mp ⟨as', hrest⟩ y hy2
    · intro hall
      have hx : x = Json.null := hall x (List.mem_cons_self x xs)
      obtain ⟨as', has'⟩ := (ih (i + 1)).mpr
        (fun y hy => hall y (List.mem_cons_of_mem x hy))
      subst hx
      refine ⟨() :: as', ?_⟩
      simp only [decodeElems, decodeTODO, inSeg, Except.mapError, has']

theorem decodeListTODO_ok_iff (j : Json) :
    decodeListTODO j = .ok () ↔
      ∃ xs, j = Json.arr xs ∧ ∀ x ∈ xs, x = Json.null := by
  cases j with
  | arr xs =>
    simp only [decodeListTODO, decodeList]
    constructor
    · intro h
      refine ⟨xs, rfl, ?_⟩
      cases hres : decodeElems decodeTODO 0 xs with
      | error e =>
        rw [hres] at h
        simp [Except.map] at h
      | ok as => exact (decodeElems_TODO xs 0).mp ⟨as, hres⟩
    · rintro ⟨xs', heq, hall⟩
      injection heq with hxs
      subst hxs
      obtain ⟨as, has⟩ := (decodeElems_TODO xs 0).mpr hall
      rw [has]
      rfl
  | null => simp [decodeListTODO, decodeList, Except.map]
  | bool b => simp [decodeListTODO, decodeList, Except.map]
  | int n => simp [decodeListTODO, decodeList, Except.map]
  | float lit => simp [decodeListTODO, decodeList, Except.map]
  | str s => simp [decodeListTODO, decodeList, Except.map]
  | obj kvs => simp [decodeListTODO, decodeList, Except.map]

theorem decodeDictTODO_ok_iff (j : Json) :
    decodeDictTODO j = .ok () ↔ j = Json.obj [] := by
  cases j with
  | obj kvs =>
    cases kvs with
    | nil =>
      constructor
      · intro _; rfl
      · intro _; rfl
    | cons kv kvs =>
      have hfind : List.find?
          (fun kv2 => !(List.contains ([] : List String) kv2.1))
          (kv :: kvs) = some kv :=
        List.find?_cons_of_pos _ rfl
      simp [decodeDictTODO, strictKeys, hfind]
  | null => simp [decodeDictTODO]
  | bool b => simp [decodeDictTODO]
  | int n => simp [decodeDictTODO]
  | float lit => simp [decodeDictTODO]
  | str s => simp [decodeDictTODO]
  | arr xs => simp [decodeDictTODO]

/-- C2 counterexample: for the list-shaped canary `ListTODO`, the
one-element array `[null]` — which is neither JSON `null` nor the
empty list — decodes successfully, so null / empty-list are not the
only accepted inputs. -/
theorem canary_nonempty_null_list_accepted :
    decodeListTODO (Json.arr [Json.null]) = .ok () ∧
    Json.arr [Json.null] ≠ Json.null ∧
    Json.arr [Json.null] ≠ Json.arr [] :=
  ⟨rfl, fun h => Json.noConfusion h,
   fun h => by injection h with h2; exact List.noConfusion h2⟩

/-- C2 (amended): each of the three canary kinds accepts exactly one
shape of content — a scalar canary (`TODO`) exactly JSON `null`, a
list-shaped canary (`ListTODO`) exactly the JSON arrays all of whose
elements are `null` (the empty list included), and a dict-shaped
canary (`DictTODO`) exactly the empty JSON object; any other content
is a decode failure — in particular supplying
`"icon_hash": "deadbeef"` under `static.pe` fails the whole report
decode with a placeholder violation at path `static.pe.icon_hash`. -/
theorem canary_fields_amended :
    (∀ (j : Json) (u : Unit), decodeTODO j = .ok u ↔ j = Json.null) ∧
    (∀ j : Json, decodeListTODO j = .ok () ↔
      ∃ xs, j = Json.arr xs ∧ ∀ x ∈ xs, x = Json.null) ∧
    (∀ j : Json, decodeDictTODO j = .ok () ↔ j = Json.obj []) ∧
    decodeCapeReport canaryReport =
      .error (.placeholderViolation ["static", "pe", "icon_hash"] "str") :=
  ⟨decodeTODO_eq_ok_iff, decodeListTODO_ok_iff, decodeDictTODO_ok_iff, rfl⟩

/-- Witness for C2 (amended) at concrete inputs: `null` for the scalar
canary, the empty array for the list canary and the empty object for
the dict canary. -/
theorem canary_fields_amended_witness :
    decodeTODO Json.null = .ok () ∧ decodeListTODO (Json.arr []) = .ok () ∧
    decodeDictTODO (Json.obj []) = .ok () :=
  ⟨(canary_fields_amended.1 Json.null ()).mpr rfl,
   (canary_fields_amended.2.1 (Json.arr [])).mpr ⟨[], rfl, by simp⟩,
   (canary_fields_amended.2.2.1 (Json.obj [])).mpr rfl⟩

/-! ## Lemmas: both import-table variants decode alike -/

theorem inSeg_eq_ok_iff {α : Type} (seg : String) (r : Except DecodeError α)
    (a : α) : inSeg seg r = .ok a ↔ r = .ok a := by
  cases r <;> simp [inSeg, Except.mapError]

theorem decodeElems_length {α : Type} (d : Json → Except DecodeError α) :
    ∀ (xs : List Json) (i : Nat) (as : List α),
      decodeElems d i xs = .ok as → as.length = xs.length := by
  intro xs
  induction xs with
  | nil =>
    intro i as h
    simp only [decodeElems] at h
    injection h with h1
    subst h1
    rfl
  | cons x xs ih =>
    intro i as h
    simp only [decodeElems] at h
    cases hv : d x with
    | error e =>
      rw [hv] at h
      simp [inSeg, Except.mapError] at h
    | ok a =>
      rw [hv] at h
      simp only [inSeg, Except.mapError] at h
      cases hrest : decodeElems d (i + 1) xs with
      | error e =>
        rw [hrest] at h
        simp at h
      | ok as' =>
        rw [hrest] at h
        injection h with h1
        subst h1
        simp [ih (i + 1) as' hrest]

theorem decodeEntries_of_decodeElems {α : Type}
    (d : Json → Except DecodeError α) :
    ∀ (kvs : List (String × Json)) (i : Nat) (as : List α),
      decodeElems d i (kvs.map Prod.snd) = .ok as →
      decodeEntries d kvs = .ok ((kvs.map Prod.fst).zip as) := by
  intro kvs
  induction kvs with
  | nil =>
    intro i as h
    simp only [List.map_nil, decodeElems] at h
    injection h with h1
    subst h1
    rfl
  | cons kv kvs ih =>
    obtain ⟨k, v⟩ := kv
    intro i as h
    simp only [List.map_cons, decodeElems] at h
    cases hv : d v with
    | error e =>
      rw [hv] at h
      simp [inSeg, Except.mapError] at h
    | ok a =>
      rw [hv] at h
      simp only [inSeg, Except.mapError] at h
      cases hrest : decodeElems d (i + 1) (kvs.map Prod.snd) with
      | error e =>
        rw [hrest] at h
        simp at h
      | ok as' =>
        rw [hrest] at h
        injection h with h1
        subst h1
        simp only [decodeEntries, List.map_cons]
        rw [hv]
        simp only [inSeg, Except.mapError]
        rw [ih (i + 1) as' hrest]
        rfl

/-- C5: a PE `imports` field decodes successfully both as a JSON array
of per-DLL objects and as a JSON object mapping DLL names to the same
objects, the per-DLL (and hence per-symbol name/address) decode
results being identical in the two cases; and the decoded value
retains whichever shape the input used (an array only ever yields the
list variant, an object only ever the dict variant — no
normalization). -/
theorem imports_variant_resolution :
    (∀ (entries : List (String × Json)) (ds : List ImportedDll),
      decodeElems decodeImportedDll 0 (entries.map Prod.snd) = .ok ds →
      decodeImports (Json.arr (entries.map Prod.snd)) =
        .ok (PEImports.list ds) ∧
      decodeImports (Json.obj entries) =
        .ok (PEImports.dict ((entries.map Prod.fst).zip ds)) ∧
      ((entries.map Prod.fst).zip ds).map Prod.snd = ds) ∧
    (∀ (j : Json) (ds : List ImportedDll),
      decodeImports j = .ok (PEImports.list ds) → ∃ xs, j = Json.arr xs) ∧
    (∀ (j : Json) (m : List (String × ImportedDll)),
      decodeImports j = .ok (PEImports.dict m) → ∃ kvs, j = Json.obj kvs) := by
  refine ⟨?_, ?_, ?_⟩
  · intro entries ds h
    refine ⟨?_, ?_, ?_⟩
    · simp only [decodeImports, h]
      rfl
    · simp only [decodeImports, decodeEntries_of_decodeElems
        decodeImportedDll entries 0 ds h]
      rfl
    · refine List.map_snd_zip _ _ ?_
      have h1 := decodeElems_length decodeImportedDll (entries.map Prod.snd)
        0 ds h
      simp only [List.length_map] at h1 ⊢
      omega
  · intro j ds h
    cases j with
    | arr xs => exact ⟨xs, rfl⟩
    | obj kvs =>
      cases hres : decodeEntries decodeImportedDll kvs with
      | error e => simp [decodeImports, hres, Except.map] at h
      | ok m => simp [decodeImports, hres, Except.map] at h
    | null => simp [decodeImports] at h
    | bool b => simp [decodeImports] at h
    | int n => simp [decodeImports] at h
    | float lit => simp [decodeImports] at h
    | str s => simp [decodeImports] at h
  · intro j m h
    cases j with
    | obj kvs => exact ⟨kvs, rfl⟩
    | arr xs =>
      cases hres : decodeElems decodeImportedDll 0 xs with
      | error e => simp [decodeImports, hres, Except.map] at h
      | ok ds => simp [decodeImports, hres, Except.map] at h
    | null => simp [decodeImports] at h
    | bool b => simp [decodeImports] at h
    | int n => simp [decodeImports] at h
    | float lit => simp [decodeImports] at h
    | str s => simp [decodeImports] at h

/-- Witness for C5: one `KERNEL32.dll` import group supplied as a
one-element array and as a one-entry mapping. -/
theorem imports_variant_resolution_witness :
    decodeImports (Json.arr [dllFixture]) = .ok (PEImports.list [dllDecoded]) ∧
    decodeImports (Json.obj [("kernel32", dllFixture)]) =
      .ok (PEImports.dict [("kernel32", dllDecoded)]) := by
  have h := imports_variant_resolution.1 [("kernel32", dllFixture)]
    [dllDecoded] (by rfl)
  exact ⟨h.1, h.2.1⟩

end Cape
